import Mathlib

/-!
Verification of the g9p 9P2000 protocol library: a shallow embedding of the
binary codec (`protocol/9p.go`, `protocol/wrapper.go`) and of the client
request/response engine (`client.go`), together with theorems settling the
specification claims about them.

Bytes are modelled as natural numbers (the encoders only produce values
`< 256`); byte streams are `List Nat`; Go strings and `[]byte` slices are
byte lists.  Machine-integer truncation (`uint16(x)`, `uint32(x)`) is
modelled by `% 2 ^ w`, which the little-endian serialiser `toLE` performs
implicitly, digit by digit.
-/

namespace G9p

/-- Little-endian serialisation of `v` into `w` bytes, as in Go's
`binary.LittleEndian.PutUintNN` (bits beyond `8*w` are dropped). -/
def toLE : Nat → Nat → List Nat
  | 0, _ => []
  | w + 1, v => v % 256 :: toLE w (v / 256)

/-- Little-endian deserialisation, as in Go's `binary.LittleEndian.UintNN`. -/
def fromLE : List Nat → Nat
  | [] => 0
  | b :: bs => b + 256 * fromLE bs

@[simp] theorem length_toLE (w v : Nat) : (toLE w v).length = w := by
  induction w generalizing v with
  | zero => rfl
  | succ w ih => simp [toLE, ih]

theorem fromLE_toLE (w v : Nat) : fromLE (toLE w v) = v % 256 ^ w := by
  induction w generalizing v with
  | zero => simp [toLE, fromLE, Nat.mod_one]
  | succ w ih =>
    have h : (256 : Nat) ^ (w + 1) = 256 * 256 ^ w := by ring
    simp [toLE, fromLE, ih, h, Nat.mod_mul]

theorem fromLE_toLE_of_lt {w v : Nat} (h : v < 256 ^ w) :
    fromLE (toLE w v) = v := by
  rw [fromLE_toLE, Nat.mod_eq_of_lt h]

/-- `toLE` truncates exactly like the Go conversion `uintN(v)`. -/
theorem toLE_mod (w v : Nat) : toLE w (v % 256 ^ w) = toLE w v := by
  induction w generalizing v with
  | zero => rfl
  | succ w ih =>
    have h : (256 : Nat) ^ (w + 1) = 256 * 256 ^ w := by ring
    simp only [toLE, h, Nat.mod_mul_right_mod]
    congr 1
    have hd : v % (256 * 256 ^ w) / 256 = v / 256 % 256 ^ w := by
      rw [Nat.mod_mul]
      omega
    rw [hd]
    exact ih (v / 256)

/-- Modelled from the spec: the 9P2000 message type codes of §4.2/§6
(`100/101 Tversion/Rversion` … `126/127 Twstat/Rwstat`); their declaring
file is not under `src/`. -/
def Tversion : Nat := 100

def Rversion : Nat := 101

def Tauth : Nat := 102

def Rauth : Nat := 103

def Tattach : Nat := 104

def Rattach : Nat := 105

def Terror : Nat := 106

def Rerror : Nat := 107

def Tflush : Nat := 108

def Rflush : Nat := 109

def Twalk : Nat := 110

def Rwalk : Nat := 111

def Topen : Nat := 112

def Ropen : Nat := 113

def Tcreate : Nat := 114

def Rcreate : Nat := 115

def Tread : Nat := 116

def Rread : Nat := 117

def Twrite : Nat := 118

def Rwrite : Nat := 119

def Tclunk : Nat := 120

def Rclunk : Nat := 121

def Tremove : Nat := 122

def Rremove : Nat := 123

def Tstat : Nat := 124

def Rstat : Nat := 125

def Twstat : Nat := 126

def Rwstat : Nat := 127

/-- Modelled from the spec: `NOTAG = 0xFFFF` (§6 well-known constants). -/
def NOTAG : Nat := 0xFFFF

/-- Modelled from the spec: header size = 5 bytes (§6 well-known constants). -/
def HeaderSize : Nat := 5

/-- The state a message body is decoded from: the remaining bytes of the
underlying stream and the remaining byte budget of the `io.LimitedReader`
wrapped around it (`N` is an `int64` and may start negative for
undersized frames). -/
structure LR where
  rem : List Nat
  n : Int
deriving DecidableEq

/-- Decode-side errors: transport EOF / short read, or an unknown message
type code. -/
inductive DErr where
  | eof
  | unknownMessageType
deriving DecidableEq

instance exceptDecEq {ε α : Type} [DecidableEq ε] [DecidableEq α] :
    DecidableEq (Except ε α) := fun a b =>
  match a, b with
  | .error e, .error f =>
    if h : e = f then .isTrue (by rw [h]) else .isFalse (by simp [h])
  | .error _, .ok _ => .isFalse (by simp)
  | .ok _, .error _ => .isFalse (by simp)
  | .ok x, .ok y =>
    if h : x = y then .isTrue (by rw [h]) else .isFalse (by simp [h])

/-- A decoding step: Go's `func(r io.Reader) (α, error)` reading from the
bounded body reader. -/
def DecM (α : Type) : Type := LR → Except DErr (α × LR)

def dpure {α : Type} (a : α) : DecM α := fun s => .ok (a, s)

/-- Sequencing with Go's `if err != nil { return err }` convention. -/
def dbind {α β : Type} (x : DecM α) (f : α → DecM β) : DecM β := fun s =>
  match x s with
  | .error e => .error e
  | .ok (a, s1) => f a s1

def derror {α : Type} (e : DErr) : DecM α := fun _ => .error e

/-- `read` (`io.ReadFull` through the `io.LimitedReader`): a zero-byte read
succeeds without touching the stream; a `k`-byte read succeeds iff both the
budget and the underlying stream hold `k` bytes, and fails with an
EOF-style error otherwise. -/
def readB (k : Nat) : DecM (List Nat) := fun s =>
  if k = 0 then .ok ([], s)
  else if (k : Int) ≤ s.n ∧ k ≤ s.rem.length then
    .ok (s.rem.take k, ⟨s.rem.drop k, s.n - k⟩)
  else .error .eof

def ReadByte : DecM Nat := dbind (readB 1) fun b => dpure (fromLE b)

def ReadUint16 : DecM Nat := dbind (readB 2) fun b => dpure (fromLE b)

def ReadUint32 : DecM Nat := dbind (readB 4) fun b => dpure (fromLE b)

def ReadUint64 : DecM Nat := dbind (readB 8) fun b => dpure (fromLE b)

def ReadTag : DecM Nat := ReadUint16

def ReadFid : DecM Nat := ReadUint32

def ReadString : DecM (List Nat) := dbind ReadUint16 fun l => readB l

def ReadOpenMode : DecM Nat := ReadByte

def ReadQidType : DecM Nat := ReadByte

def ReadFileMode : DecM Nat := ReadUint32

/-- Decode `n` items in sequence (the `for i := 0; i < int(arr); i++` loops
of `WalkRequest.Decode` / `WalkResponse.Decode`). -/
def dlist {α : Type} : Nat → DecM α → DecM (List α)
  | 0, _ => dpure []
  | n + 1, m => dbind m fun a => dbind (dlist n m) fun as => dpure (a :: as)

/-- `WriteUint16` as a byte-list producer (`uint16` truncation is performed
by `toLE`). -/
def WriteUint16 (v : Nat) : List Nat := toLE 2 v

def WriteUint32 (v : Nat) : List Nat := toLE 4 v

def WriteUint64 (v : Nat) : List Nat := toLE 8 v

def WriteByte (v : Nat) : List Nat := toLE 1 v

/-- `WriteString`: `uint16` length prefix, then the raw bytes. -/
def WriteString (s : List Nat) : List Nat := WriteUint16 s.length ++ s

/- ### Primitive decode/encode agreement lemmas -/

theorem dbind_ok {α β : Type} {x : DecM α} {f : α → DecM β} {s : LR} {a : α}
    {s1 : LR} (h : x s = .ok (a, s1)) : dbind x f s = f a s1 := by
  simp [dbind, h]

theorem dbind_error {α β : Type} {x : DecM α} {f : α → DecM β} {s : LR}
    {e : DErr} (h : x s = .error e) : dbind x f s = .error e := by
  simp [dbind, h]

theorem readB_append {l rest : List Nat} {n : Int} (h : (l.length : Int) ≤ n) :
    readB l.length ⟨l ++ rest, n⟩ = .ok (l, ⟨rest, n - l.length⟩) := by
  rcases Decidable.em (l = []) with rfl | hne
  · simp [readB]
  · have hlen : l.length ≠ 0 := by simpa using hne
    simp only [readB, hlen, if_false, List.length_append]
    rw [if_pos ⟨h, Nat.le_add_right _ _⟩]
    simp [List.take_left, List.drop_left]

theorem readU16_toLE {v : Nat} {rest : List Nat} {n : Int} (hv : v < 2 ^ 16)
    (hn : 2 ≤ n) : ReadUint16 ⟨WriteUint16 v ++ rest, n⟩ = .ok (v, ⟨rest, n - 2⟩) := by
  have h := @readB_append (toLE 2 v) rest n
    (by simpa using hn)
  rw [ReadUint16, WriteUint16]
  rw [show ((toLE 2 v).length : Int) = 2 from by simp] at h
  rw [length_toLE] at h
  rw [dbind_ok h, dpure, fromLE_toLE_of_lt (by simpa using hv)]

theorem readU32_toLE {v : Nat} {rest : List Nat} {n : Int} (hv : v < 2 ^ 32)
    (hn : 4 ≤ n) : ReadUint32 ⟨WriteUint32 v ++ rest, n⟩ = .ok (v, ⟨rest, n - 4⟩) := by
  have h := @readB_append (toLE 4 v) rest n
    (by simpa using hn)
  rw [ReadUint32, WriteUint32]
  rw [show ((toLE 4 v).length : Int) = 4 from by simp] at h
  rw [length_toLE] at h
  rw [dbind_ok h, dpure, fromLE_toLE_of_lt (by simpa using hv)]

theorem readU64_toLE {v : Nat} {rest : List Nat} {n : Int} (hv : v < 2 ^ 64)
    (hn : 8 ≤ n) : ReadUint64 ⟨WriteUint64 v ++ rest, n⟩ = .ok (v, ⟨rest, n - 8⟩) := by
  have h := @readB_append (toLE 8 v) rest n
    (by simpa using hn)
  rw [ReadUint64, WriteUint64]
  rw [show ((toLE 8 v).length : Int) = 8 from by simp] at h
  rw [length_toLE] at h
  rw [dbind_ok h, dpure, fromLE_toLE_of_lt (by simpa using hv)]

theorem readByte_toLE {v : Nat} {rest : List Nat} {n : Int} (hv : v < 2 ^ 8)
    (hn : 1 ≤ n) : ReadByte ⟨WriteByte v ++ rest, n⟩ = .ok (v, ⟨rest, n - 1⟩) := by
  have h := @readB_append (toLE 1 v) rest n
    (by simpa using hn)
  rw [ReadByte, WriteByte]
  rw [show ((toLE 1 v).length : Int) = 1 from by simp] at h
  rw [length_toLE] at h
  rw [dbind_ok h, dpure, fromLE_toLE_of_lt (by simpa using hv)]

theorem readString_write {s rest : List Nat} {n : Int} (hs : s.length < 2 ^ 16)
    (hn : 2 + (s.length : Int) ≤ n) :
    ReadString ⟨WriteString s ++ rest, n⟩ = .ok (s, ⟨rest, n - (2 + s.length)⟩) := by
  rw [ReadString, WriteString, List.append_assoc,
    dbind_ok (readU16_toLE hs (by omega))]
  have h := @readB_append s rest (n - 2) (by omega)
  rw [h, show n - 2 - (s.length : Int) = n - (2 + s.length) from by ring]

/-- Reading a 16-bit field whose encoded value was truncated (used for the
redundant Stat length prefixes, whose decoded value is discarded). -/
theorem readU16_toLE_mod {v : Nat} {rest : List Nat} {n : Int} (hn : 2 ≤ n) :
    ReadUint16 ⟨WriteUint16 v ++ rest, n⟩ = .ok (v % 2 ^ 16, ⟨rest, n - 2⟩) := by
  have h := @readB_append (toLE 2 v) rest n
    (by simpa using hn)
  rw [ReadUint16, WriteUint16]
  rw [show ((toLE 2 v).length : Int) = 2 from by simp] at h
  rw [length_toLE] at h
  rw [dbind_ok h, dpure, fromLE_toLE]
  norm_num

/- ### The shared substructures `Qid` and `Stat` (`protocol/9p.go`) -/

structure Qid where
  Typ : Nat
  Version : Nat
  Path : Nat
deriving DecidableEq

def Qid.EncodedLength (_ : Qid) : Nat := 13

def Qid.Encode (q : Qid) : List Nat :=
  WriteByte q.Typ ++ WriteUint32 q.Version ++ WriteUint64 q.Path

def Qid.dec : DecM Qid :=
  dbind ReadQidType fun t =>
  dbind ReadUint32 fun v =>
  dbind ReadUint64 fun p =>
  dpure ⟨t, v, p⟩

@[simp] theorem Qid_length_Encode (q : Qid) : q.Encode.length = 13 := by
  simp [Qid.Encode, WriteByte, WriteUint32, WriteUint64]

theorem Qid_dec_enc (q : Qid) (rest : List Nat) (n : Int)
    (h1 : q.Typ < 2 ^ 8) (h2 : q.Version < 2 ^ 32) (h3 : q.Path < 2 ^ 64)
    (hn : 13 ≤ n) :
    Qid.dec ⟨q.Encode ++ rest, n⟩ = .ok (q, ⟨rest, n - 13⟩) := by
  rw [Qid.dec, Qid.Encode]
  simp only [ReadQidType, List.append_assoc]
  rw [dbind_ok (readByte_toLE h1 (by omega)),
    dbind_ok (readU32_toLE h2 (by omega)),
    dbind_ok (readU64_toLE h3 (by omega)), dpure,
    show n - 1 - 4 - 8 = n - 13 from by ring]

structure Stat where
  Typ : Nat
  Dev : Nat
  Qid : Qid
  Mode : Nat
  Atime : Nat
  Mtime : Nat
  Length : Nat
  Name : List Nat
  UID : List Nat
  GID : List Nat
  MUID : List Nat
deriving DecidableEq

def Stat.EncodedLength (s : Stat) : Nat :=
  2 + 2 + 4 + 13 + 4 + 4 + 4 + 8 + 8 +
    s.Name.length + s.UID.length + s.GID.length + s.MUID.length

/-- `Stat.Encode` first writes `uint16(EncodedLength() - 2)` — the inner,
informational length prefix — then the fields. -/
def Stat.Encode (s : Stat) : List Nat :=
  WriteUint16 (s.EncodedLength - 2) ++ WriteUint16 s.Typ ++ WriteUint32 s.Dev ++
    s.Qid.Encode ++ WriteUint32 s.Mode ++ WriteUint32 s.Atime ++
    WriteUint32 s.Mtime ++ WriteUint64 s.Length ++ WriteString s.Name ++
    WriteString s.UID ++ WriteString s.GID ++ WriteString s.MUID

/-- `Stat.Decode` reads and discards the inner length prefix ("We have no
use of this length"), then fills every field from the wire. -/
def Stat.dec : DecM Stat :=
  dbind ReadUint16 fun _ =>
  dbind ReadUint16 fun t =>
  dbind ReadUint32 fun dev =>
  dbind Qid.dec fun q =>
  dbind ReadFileMode fun mode =>
  dbind ReadUint32 fun at1 =>
  dbind ReadUint32 fun mt1 =>
  dbind ReadUint64 fun len =>
  dbind ReadString fun nm =>
  dbind ReadString fun uid =>
  dbind ReadString fun gid =>
  dbind ReadString fun muid =>
  dpure ⟨t, dev, q, mode, at1, mt1, len, nm, uid, gid, muid⟩

@[simp] theorem Stat_length_Encode (s : Stat) :
    s.Encode.length = s.EncodedLength := by
  simp [Stat.Encode, Stat.EncodedLength, WriteUint16, WriteUint32,
    WriteUint64, WriteString]
  omega

/-- The value bounds guaranteed in Go by `Stat`'s field types, plus the
wire-width bounds on its variable-length strings. -/
def Stat.fits (s : Stat) : Prop :=
  s.Typ < 2 ^ 16 ∧ s.Dev < 2 ^ 32 ∧ s.Qid.Typ < 2 ^ 8 ∧
    s.Qid.Version < 2 ^ 32 ∧ s.Qid.Path < 2 ^ 64 ∧ s.Mode < 2 ^ 32 ∧
    s.Atime < 2 ^ 32 ∧ s.Mtime < 2 ^ 32 ∧ s.Length < 2 ^ 64 ∧
    s.Name.length < 2 ^ 16 ∧ s.UID.length < 2 ^ 16 ∧
    s.GID.length < 2 ^ 16 ∧ s.MUID.length < 2 ^ 16

instance (s : Stat) : Decidable s.fits := by
  unfold Stat.fits
  infer_instance

theorem Stat_dec_enc (s : Stat) (rest : List Nat) (n : Int)
    (hf : s.fits) (hn : (s.EncodedLength : Int) ≤ n) :
    Stat.dec ⟨s.Encode ++ rest, n⟩ = .ok (s, ⟨rest, n - s.EncodedLength⟩) := by
  obtain ⟨h1, h2, h3, h4, h5, h6, h7, h8, h9, h10, h11, h12, h13⟩ := hf
  have hn' : (49 : Int) + s.Name.length + s.UID.length + s.GID.length +
      s.MUID.length ≤ n := by
    have := hn
    simp only [Stat.EncodedLength] at this
    push_cast at this
    omega
  rw [Stat.dec, Stat.Encode]
  simp only [ReadFileMode, List.append_assoc]
  rw [dbind_ok (readU16_toLE_mod (by omega)),
    dbind_ok (readU16_toLE h1 (by omega)),
    dbind_ok (readU32_toLE h2 (by omega)),
    dbind_ok (G9p.Qid_dec_enc s.Qid _ _ h3 h4 h5 (by omega)),
    dbind_ok (readU32_toLE h6 (by omega)),
    dbind_ok (readU32_toLE h7 (by omega)),
    dbind_ok (readU32_toLE h8 (by omega)),
    dbind_ok (readU64_toLE h9 (by omega)),
    dbind_ok (readString_write h10 (by omega)),
    dbind_ok (readString_write h11 (by omega)),
    dbind_ok (readString_write h12 (by omega)),
    dbind_ok (readString_write h13 (by omega)), dpure]
  have harith : n - 2 - 2 - 4 - 13 - 4 - 4 - 4 - 8 - (2 + (s.Name.length : Int)) -
      (2 + (s.UID.length : Int)) - (2 + (s.GID.length : Int)) -
      (2 + (s.MUID.length : Int)) = n - s.EncodedLength := by
    simp only [Stat.EncodedLength]
    push_cast
    ring
  rw [harith]

/- ### Message variants (`protocol/9p.go`), in source order -/

structure VersionRequest where
  Tag : Nat
  MaxSize : Nat
  Version : List Nat
deriving DecidableEq

def VersionRequest.EncodedLength (x : VersionRequest) : Nat :=
  2 + 4 + 2 + x.Version.length

def VersionRequest.Encode (x : VersionRequest) : List Nat :=
  WriteUint16 x.Tag ++ WriteUint32 x.MaxSize ++ WriteString x.Version

def VersionRequest.dec : DecM VersionRequest :=
  dbind ReadTag fun t =>
  dbind ReadUint32 fun ms =>
  dbind ReadString fun v =>
  dpure ⟨t, ms, v⟩

structure VersionResponse where
  Tag : Nat
  MaxSize : Nat
  Version : List Nat
deriving DecidableEq

def VersionResponse.EncodedLength (x : VersionResponse) : Nat :=
  2 + 4 + 2 + x.Version.length

def VersionResponse.Encode (x : VersionResponse) : List Nat :=
  WriteUint16 x.Tag ++ WriteUint32 x.MaxSize ++ WriteString x.Version

def VersionResponse.dec : DecM VersionResponse :=
  dbind ReadTag fun t =>
  dbind ReadUint32 fun ms =>
  dbind ReadString fun v =>
  dpure ⟨t, ms, v⟩

structure AuthRequest where
  Tag : Nat
  AuthFid : Nat
  Username : List Nat
  Service : List Nat
deriving DecidableEq

def AuthRequest.EncodedLength (x : AuthRequest) : Nat :=
  2 + 4 + 2 + x.Username.length + 2 + x.Service.length

def AuthRequest.Encode (x : AuthRequest) : List Nat :=
  WriteUint16 x.Tag ++ WriteUint32 x.AuthFid ++ WriteString x.Username ++
    WriteString x.Service

def AuthRequest.dec : DecM AuthRequest :=
  dbind ReadTag fun t =>
  dbind ReadFid fun f =>
  dbind ReadString fun u =>
  dbind ReadString fun s =>
  dpure ⟨t, f, u, s⟩

structure AuthResponse where
  Tag : Nat
  AuthQid : Qid
deriving DecidableEq

def AuthResponse.EncodedLength (_ : AuthResponse) : Nat := 2 + 13

def AuthResponse.Encode (x : AuthResponse) : List Nat :=
  WriteUint16 x.Tag ++ x.AuthQid.Encode

def AuthResponse.dec : DecM AuthResponse :=
  dbind ReadTag fun t =>
  dbind Qid.dec fun q =>
  dpure ⟨t, q⟩

structure AttachRequest where
  Tag : Nat
  Fid : Nat
  AuthFid : Nat
  Username : List Nat
  Service : List Nat
deriving DecidableEq

def AttachRequest.EncodedLength (x : AttachRequest) : Nat :=
  2 + 4 + 4 + 2 + x.Username.length + 2 + x.Service.length

def AttachRequest.Encode (x : AttachRequest) : List Nat :=
  WriteUint16 x.Tag ++ WriteUint32 x.Fid ++ WriteUint32 x.AuthFid ++
    WriteString x.Username ++ WriteString x.Service

def AttachRequest.dec : DecM AttachRequest :=
  dbind ReadTag fun t =>
  dbind ReadFid fun f =>
  dbind ReadFid fun af =>
  dbind ReadString fun u =>
  dbind ReadString fun s =>
  dpure ⟨t, f, af, u, s⟩

structure AttachResponse where
  Tag : Nat
  Qid : Qid
deriving DecidableEq

def AttachResponse.EncodedLength (_ : AttachResponse) : Nat := 2 + 13

def AttachResponse.Encode (x : AttachResponse) : List Nat :=
  WriteUint16 x.Tag ++ x.Qid.Encode

def AttachResponse.dec : DecM AttachResponse :=
  dbind ReadTag fun t =>
  dbind Qid.dec fun q =>
  dpure ⟨t, q⟩

structure ErrorResponse where
  Tag : Nat
  Error : List Nat
deriving DecidableEq

def ErrorResponse.EncodedLength (x : ErrorResponse) : Nat :=
  2 + 2 + x.Error.length

def ErrorResponse.Encode (x : ErrorResponse) : List Nat :=
  WriteUint16 x.Tag ++ WriteString x.Error

def ErrorResponse.dec : DecM ErrorResponse :=
  dbind ReadTag fun t =>
  dbind ReadString fun e =>
  dpure ⟨t, e⟩

structure FlushRequest where
  Tag : Nat
  OldTag : Nat
deriving DecidableEq

def FlushRequest.EncodedLength (_ : FlushRequest) : Nat := 2 + 2

def FlushRequest.Encode (x : FlushRequest) : List Nat :=
  WriteUint16 x.Tag ++ WriteUint16 x.OldTag

def FlushRequest.dec : DecM FlushRequest :=
  dbind ReadTag fun t =>
  dbind ReadTag fun ot =>
  dpure ⟨t, ot⟩

structure FlushResponse where
  Tag : Nat
deriving DecidableEq

def FlushResponse.EncodedLength (_ : FlushResponse) : Nat := 2

def FlushResponse.Encode (x : FlushResponse) : List Nat := WriteUint16 x.Tag

def FlushResponse.dec : DecM FlushResponse :=
  dbind ReadTag fun t => dpure ⟨t⟩

/-- The `for i := range wr.Names { WriteString ... }` loop. -/
def encNames : List (List Nat) → List Nat
  | [] => []
  | s :: ss => WriteString s ++ encNames ss

/-- The `x += 2 + len(wr.Names[i])` accumulation inside
`WalkRequest.EncodedLength`. -/
def strsLen : List (List Nat) → Nat
  | [] => 0
  | s :: ss => 2 + s.length + strsLen ss

structure WalkRequest where
  Tag : Nat
  Fid : Nat
  NewFid : Nat
  Names : List (List Nat)
deriving DecidableEq

def WalkRequest.EncodedLength (x : WalkRequest) : Nat :=
  2 + 4 + 4 + 2 + strsLen x.Names

def WalkRequest.Encode (x : WalkRequest) : List Nat :=
  WriteUint16 x.Tag ++ WriteUint32 x.Fid ++ WriteUint32 x.NewFid ++
    WriteUint16 x.Names.length ++ encNames x.Names

def WalkRequest.dec : DecM WalkRequest :=
  dbind ReadTag fun t =>
  dbind ReadFid fun f =>
  dbind ReadFid fun nf =>
  dbind ReadUint16 fun arr =>
  dbind (dlist arr ReadString) fun ns =>
  dpure ⟨t, f, nf, ns⟩

/-- The `for i := range wr.Qids { Encode ... }` loop. -/
def encQids : List Qid → List Nat
  | [] => []
  | q :: qs => q.Encode ++ encQids qs

structure WalkResponse where
  Tag : Nat
  Qids : List Qid
deriving DecidableEq

def WalkResponse.EncodedLength (x : WalkResponse) : Nat :=
  2 + 2 + 13 * x.Qids.length

def WalkResponse.Encode (x : WalkResponse) : List Nat :=
  WriteUint16 x.Tag ++ WriteUint16 x.Qids.length ++ encQids x.Qids

def WalkResponse.dec : DecM WalkResponse :=
  dbind ReadTag fun t =>
  dbind ReadUint16 fun arr =>
  dbind (dlist arr Qid.dec) fun qs =>
  dpure ⟨t, qs⟩

structure OpenRequest where
  Tag : Nat
  Fid : Nat
  Mode : Nat
deriving DecidableEq

def OpenRequest.EncodedLength (_ : OpenRequest) : Nat := 2 + 4 + 1

def OpenRequest.Encode (x : OpenRequest) : List Nat :=
  WriteUint16 x.Tag ++ WriteUint32 x.Fid ++ WriteByte x.Mode

def OpenRequest.dec : DecM OpenRequest :=
  dbind ReadTag fun t =>
  dbind ReadFid fun f =>
  dbind ReadOpenMode fun m =>
  dpure ⟨t, f, m⟩

structure OpenResponse where
  Tag : Nat
  Qid : Qid
  IOUnit : Nat
deriving DecidableEq

def OpenResponse.EncodedLength (_ : OpenResponse) : Nat := 2 + 13 + 4

def OpenResponse.Encode (x : OpenResponse) : List Nat :=
  WriteUint16 x.Tag ++ x.Qid.Encode ++ WriteUint32 x.IOUnit

def OpenResponse.dec : DecM OpenResponse :=
  dbind ReadTag fun t =>
  dbind Qid.dec fun q =>
  dbind ReadUint32 fun io1 =>
  dpure ⟨t, q, io1⟩

structure CreateRequest where
  Tag : Nat
  Fid : Nat
  Name : List Nat
  Permissions : Nat
  Mode : Nat
deriving DecidableEq

def CreateRequest.EncodedLength (x : CreateRequest) : Nat :=
  2 + 4 + 2 + x.Name.length + 4 + 1

def CreateRequest.Encode (x : CreateRequest) : List Nat :=
  WriteUint16 x.Tag ++ WriteUint32 x.Fid ++ WriteString x.Name ++
    WriteUint32 x.Permissions ++ WriteByte x.Mode

def CreateRequest.dec : DecM CreateRequest :=
  dbind ReadTag fun t =>
  dbind ReadFid fun f =>
  dbind ReadString fun nm =>
  dbind ReadFileMode fun p =>
  dbind ReadOpenMode fun m =>
  dpure ⟨t, f, nm, p, m⟩

structure CreateResponse where
  Tag : Nat
  Qid : Qid
  IOUnit : Nat
deriving DecidableEq

def CreateResponse.EncodedLength (_ : CreateResponse) : Nat := 2 + 13 + 4

def CreateResponse.Encode (x : CreateResponse) : List Nat :=
  WriteUint16 x.Tag ++ x.Qid.Encode ++ WriteUint32 x.IOUnit

def CreateResponse.dec : DecM CreateResponse :=
  dbind ReadTag fun t =>
  dbind Qid.dec fun q =>
  dbind ReadUint32 fun io1 =>
  dpure ⟨t, q, io1⟩

structure ReadRequest where
  Tag : Nat
  Fid : Nat
  Offset : Nat
  Count : Nat
deriving DecidableEq

def ReadRequest.EncodedLength (_ : ReadRequest) : Nat := 2 + 4 + 8 + 4

def ReadRequest.Encode (x : ReadRequest) : List Nat :=
  WriteUint16 x.Tag ++ WriteUint32 x.Fid ++ WriteUint64 x.Offset ++
    WriteUint32 x.Count

def ReadRequest.dec : DecM ReadRequest :=
  dbind ReadTag fun t =>
  dbind ReadFid fun f =>
  dbind ReadUint64 fun o =>
  dbind ReadUint32 fun c =>
  dpure ⟨t, f, o, c⟩

structure ReadResponse where
  Tag : Nat
  Data : List Nat
deriving DecidableEq

def ReadResponse.EncodedLength (x : ReadResponse) : Nat :=
  2 + 4 + x.Data.length

def ReadResponse.Encode (x : ReadResponse) : List Nat :=
  WriteUint16 x.Tag ++ WriteUint32 x.Data.length ++ x.Data

def ReadResponse.dec : DecM ReadResponse :=
  dbind ReadTag fun t =>
  dbind ReadUint32 fun l =>
  dbind (readB l) fun d =>
  dpure ⟨t, d⟩

structure WriteRequest where
  Tag : Nat
  Fid : Nat
  Offset : Nat
  Data : List Nat
deriving DecidableEq

def WriteRequest.EncodedLength (x : WriteRequest) : Nat :=
  2 + 4 + 8 + 4 + x.Data.length

def WriteRequest.Encode (x : WriteRequest) : List Nat :=
  WriteUint16 x.Tag ++ WriteUint32 x.Fid ++ WriteUint64 x.Offset ++
    WriteUint32 x.Data.length ++ x.Data

def WriteRequest.dec : DecM WriteRequest :=
  dbind ReadTag fun t =>
  dbind ReadFid fun f =>
  dbind ReadUint64 fun o =>
  dbind ReadUint32 fun c =>
  dbind (readB c) fun d =>
  dpure ⟨t, f, o, d⟩

structure WriteResponse where
  Tag : Nat
  Count : Nat
deriving DecidableEq

def WriteResponse.EncodedLength (_ : WriteResponse) : Nat := 2 + 4

def WriteResponse.Encode (x : WriteResponse) : List Nat :=
  WriteUint16 x.Tag ++ WriteUint32 x.Count

def WriteResponse.dec : DecM WriteResponse :=
  dbind ReadTag fun t =>
  dbind ReadUint32 fun c =>
  dpure ⟨t, c⟩

structure ClunkRequest where
  Tag : Nat
  Fid : Nat
deriving DecidableEq

def ClunkRequest.EncodedLength (_ : ClunkRequest) : Nat := 2 + 4

def ClunkRequest.Encode (x : ClunkRequest) : List Nat :=
  WriteUint16 x.Tag ++ WriteUint32 x.Fid

def ClunkRequest.dec : DecM ClunkRequest :=
  dbind ReadTag fun t =>
  dbind ReadFid fun f =>
  dpure ⟨t, f⟩

structure ClunkResponse where
  Tag : Nat
deriving DecidableEq

def ClunkResponse.EncodedLength (_ : ClunkResponse) : Nat := 2

def ClunkResponse.Encode (x : ClunkResponse) : List Nat := WriteUint16 x.Tag

def ClunkResponse.dec : DecM ClunkResponse :=
  dbind ReadTag fun t => dpure ⟨t⟩

structure RemoveRequest where
  Tag : Nat
  Fid : Nat
deriving DecidableEq

def RemoveRequest.EncodedLength (_ : RemoveRequest) : Nat := 2 + 4

def RemoveRequest.Encode (x : RemoveRequest) : List Nat :=
  WriteUint16 x.Tag ++ WriteUint32 x.Fid

def RemoveRequest.dec : DecM RemoveRequest :=
  dbind ReadTag fun t =>
  dbind ReadFid fun f =>
  dpure ⟨t, f⟩

structure RemoveResponse where
  Tag : Nat
deriving DecidableEq

def RemoveResponse.EncodedLength (_ : RemoveResponse) : Nat := 2

def RemoveResponse.Encode (x : RemoveResponse) : List Nat := WriteUint16 x.Tag

def RemoveResponse.dec : DecM RemoveResponse :=
  dbind ReadTag fun t => dpure ⟨t⟩

structure StatRequest where
  Tag : Nat
  Fid : Nat
deriving DecidableEq

def StatRequest.EncodedLength (_ : StatRequest) : Nat := 2 + 4

def StatRequest.Encode (x : StatRequest) : List Nat :=
  WriteUint16 x.Tag ++ WriteUint32 x.Fid

def StatRequest.dec : DecM StatRequest :=
  dbind ReadTag fun t =>
  dbind ReadFid fun f =>
  dpure ⟨t, f⟩

structure StatResponse where
  Tag : Nat
  Stat : Stat
deriving DecidableEq

def StatResponse.EncodedLength (x : StatResponse) : Nat :=
  2 + 2 + x.Stat.EncodedLength

/-- `StatResponse.Encode` wraps the Stat body in the extra, outer `u16`
length prefix (`uint16(sr.Stat.EncodedLength())`). -/
def StatResponse.Encode (x : StatResponse) : List Nat :=
  WriteUint16 x.Tag ++ WriteUint16 x.Stat.EncodedLength ++ x.Stat.Encode

def StatResponse.dec : DecM StatResponse :=
  dbind ReadTag fun t =>
  dbind ReadUint16 fun _ =>
  dbind Stat.dec fun s =>
  dpure ⟨t, s⟩

structure WriteStatRequest where
  Tag : Nat
  Fid : Nat
  Stat : Stat
deriving DecidableEq

def WriteStatRequest.EncodedLength (x : WriteStatRequest) : Nat :=
  2 + 4 + 2 + x.Stat.EncodedLength

def WriteStatRequest.Encode (x : WriteStatRequest) : List Nat :=
  WriteUint16 x.Tag ++ WriteUint32 x.Fid ++
    WriteUint16 x.Stat.EncodedLength ++ x.Stat.Encode

def WriteStatRequest.dec : DecM WriteStatRequest :=
  dbind ReadTag fun t =>
  dbind ReadFid fun f =>
  dbind ReadUint16 fun _ =>
  dbind Stat.dec fun s =>
  dpure ⟨t, f, s⟩

structure WriteStatResponse where
  Tag : Nat
deriving DecidableEq

def WriteStatResponse.EncodedLength (_ : WriteStatResponse) : Nat := 2

def WriteStatResponse.Encode (x : WriteStatResponse) : List Nat :=
  WriteUint16 x.Tag

def WriteStatResponse.dec : DecM WriteStatResponse :=
  dbind ReadTag fun t => dpure ⟨t⟩

/- ### The `Message` interface as a closed sum -/

/-- The tagged union of every message variant handled by the codec
(`protocol.Message` values). -/
inductive Msg where
  | versionT : VersionRequest → Msg
  | versionR : VersionResponse → Msg
  | authT : AuthRequest → Msg
  | authR : AuthResponse → Msg
  | attachT : AttachRequest → Msg
  | attachR : AttachResponse → Msg
  | errorR : ErrorResponse → Msg
  | flushT : FlushRequest → Msg
  | flushR : FlushResponse → Msg
  | walkT : WalkRequest → Msg
  | walkR : WalkResponse → Msg
  | openT : OpenRequest → Msg
  | openR : OpenResponse → Msg
  | createT : CreateRequest → Msg
  | createR : CreateResponse → Msg
  | readT : ReadRequest → Msg
  | readR : ReadResponse → Msg
  | writeT : WriteRequest → Msg
  | writeR : WriteResponse → Msg
  | clunkT : ClunkRequest → Msg
  | clunkR : ClunkResponse → Msg
  | removeT : RemoveRequest → Msg
  | removeR : RemoveResponse → Msg
  | statT : StatRequest → Msg
  | statR : StatResponse → Msg
  | wstatT : WriteStatRequest → Msg
  | wstatR : WriteStatResponse → Msg
deriving DecidableEq

def Msg.GetTag : Msg → Nat
  | .versionT x => x.Tag
  | .versionR x => x.Tag
  | .authT x => x.Tag
  | .authR x => x.Tag
  | .attachT x => x.Tag
  | .attachR x => x.Tag
  | .errorR x => x.Tag
  | .flushT x => x.Tag
  | .flushR x => x.Tag
  | .walkT x => x.Tag
  | .walkR x => x.Tag
  | .openT x => x.Tag
  | .openR x => x.Tag
  | .createT x => x.Tag
  | .createR x => x.Tag
  | .readT x => x.Tag
  | .readR x => x.Tag
  | .writeT x => x.Tag
  | .writeR x => x.Tag
  | .clunkT x => x.Tag
  | .clunkR x => x.Tag
  | .removeT x => x.Tag
  | .removeR x => x.Tag
  | .statT x => x.Tag
  | .statR x => x.Tag
  | .wstatT x => x.Tag
  | .wstatR x => x.Tag

def Msg.EncodedLength : Msg → Nat
  | .versionT x => x.EncodedLength
  | .versionR x => x.EncodedLength
  | .authT x => x.EncodedLength
  | .authR x => x.EncodedLength
  | .attachT x => x.EncodedLength
  | .attachR x => x.EncodedLength
  | .errorR x => x.EncodedLength
  | .flushT x => x.EncodedLength
  | .flushR x => x.EncodedLength
  | .walkT x => x.EncodedLength
  | .walkR x => x.EncodedLength
  | .openT x => x.EncodedLength
  | .openR x => x.EncodedLength
  | .createT x => x.EncodedLength
  | .createR x => x.EncodedLength
  | .readT x => x.EncodedLength
  | .readR x => x.EncodedLength
  | .writeT x => x.EncodedLength
  | .writeR x => x.EncodedLength
  | .clunkT x => x.EncodedLength
  | .clunkR x => x.EncodedLength
  | .removeT x => x.EncodedLength
  | .removeR x => x.EncodedLength
  | .statT x => x.EncodedLength
  | .statR x => x.EncodedLength
  | .wstatT x => x.EncodedLength
  | .wstatR x => x.EncodedLength

/-- The per-variant `Encode` method (body bytes only). -/
def Msg.body : Msg → List Nat
  | .versionT x => x.Encode
  | .versionR x => x.Encode
  | .authT x => x.Encode
  | .authR x => x.Encode
  | .attachT x => x.Encode
  | .attachR x => x.Encode
  | .errorR x => x.Encode
  | .flushT x => x.Encode
  | .flushR x => x.Encode
  | .walkT x => x.Encode
  | .walkR x => x.Encode
  | .openT x => x.Encode
  | .openR x => x.Encode
  | .createT x => x.Encode
  | .createR x => x.Encode
  | .readT x => x.Encode
  | .readR x => x.Encode
  | .writeT x => x.Encode
  | .writeR x => x.Encode
  | .clunkT x => x.Encode
  | .clunkR x => x.Encode
  | .removeT x => x.Encode
  | .removeR x => x.Encode
  | .statT x => x.Encode
  | .statR x => x.Encode
  | .wstatT x => x.Encode
  | .wstatR x => x.Encode

/-- `MessageToMessageType` (`translate.go`): the runtime type switch from a
message value to its wire type code.  Total here because `Msg` is closed
(the Go `default` branch is unreachable for the variants above). -/
def MessageToMessageType : Msg → Nat
  | .versionT _ => Tversion
  | .versionR _ => Rversion
  | .authT _ => Tauth
  | .authR _ => Rauth
  | .attachT _ => Tattach
  | .attachR _ => Rattach
  | .errorR _ => Rerror
  | .flushT _ => Tflush
  | .flushR _ => Rflush
  | .walkT _ => Twalk
  | .walkR _ => Rwalk
  | .openT _ => Topen
  | .openR _ => Ropen
  | .createT _ => Tcreate
  | .createR _ => Rcreate
  | .readT _ => Tread
  | .readR _ => Rread
  | .writeT _ => Twrite
  | .writeR _ => Rwrite
  | .clunkT _ => Tclunk
  | .clunkR _ => Rclunk
  | .removeT _ => Tremove
  | .removeR _ => Rremove
  | .statT _ => Tstat
  | .statR _ => Rstat
  | .wstatT _ => Twstat
  | .wstatR _ => Rwstat

/-- `MessageTypeToMessage` (`translate.go`): type code → empty message
variant.  Faithfully reproduces the source, including the `Rremove`
branch, which returns a `RemoveRequest` (`&RemoveRequest{}`) instead of a
`RemoveResponse`. -/
def MessageTypeToMessage (mt : Nat) : Except DErr Msg :=
  if mt = Tversion then .ok (.versionT ⟨0, 0, []⟩)
  else if mt = Rversion then .ok (.versionR ⟨0, 0, []⟩)
  else if mt = Tauth then .ok (.authT ⟨0, 0, [], []⟩)
  else if mt = Rauth then .ok (.authR ⟨0, ⟨0, 0, 0⟩⟩)
  else if mt = Tattach then .ok (.attachT ⟨0, 0, 0, [], []⟩)
  else if mt = Rattach then .ok (.attachR ⟨0, ⟨0, 0, 0⟩⟩)
  else if mt = Tflush then .ok (.flushT ⟨0, 0⟩)
  else if mt = Rflush then .ok (.flushR ⟨0⟩)
  else if mt = Twalk then .ok (.walkT ⟨0, 0, 0, []⟩)
  else if mt = Rwalk then .ok (.walkR ⟨0, []⟩)
  else if mt = Topen then .ok (.openT ⟨0, 0, 0⟩)
  else if mt = Ropen then .ok (.openR ⟨0, ⟨0, 0, 0⟩, 0⟩)
  else if mt = Tcreate then .ok (.createT ⟨0, 0, [], 0, 0⟩)
  else if mt = Rcreate then .ok (.createR ⟨0, ⟨0, 0, 0⟩, 0⟩)
  else if mt = Tread then .ok (.readT ⟨0, 0, 0, 0⟩)
  else if mt = Rread then .ok (.readR ⟨0, []⟩)
  else if mt = Twrite then .ok (.writeT ⟨0, 0, 0, []⟩)
  else if mt = Rwrite then .ok (.writeR ⟨0, 0⟩)
  else if mt = Tclunk then .ok (.clunkT ⟨0, 0⟩)
  else if mt = Rclunk then .ok (.clunkR ⟨0⟩)
  else if mt = Tremove then .ok (.removeT ⟨0, 0⟩)
  else if mt = Rremove then .ok (.removeT ⟨0, 0⟩)
  else if mt = Tstat then .ok (.statT ⟨0, 0⟩)
  else if mt = Rstat then .ok (.statR ⟨0, ⟨0, 0, ⟨0, 0, 0⟩, 0, 0, 0, 0, [], [], [], []⟩⟩)
  else if mt = Twstat then .ok (.wstatT ⟨0, 0, ⟨0, 0, ⟨0, 0, 0⟩, 0, 0, 0, 0, [], [], [], []⟩⟩)
  else if mt = Rwstat then .ok (.wstatR ⟨0⟩)
  else if mt = Rerror then .ok (.errorR ⟨0, []⟩)
  else .error .unknownMessageType

/-- Running the `Decode` method of a (freshly allocated) message: the
concrete decoder is selected by the dynamic variant, and every field is
overwritten from the wire, so the result variant equals the template
variant. -/
def Msg.decLike : Msg → DecM Msg
  | .versionT _ => dbind VersionRequest.dec fun x => dpure (.versionT x)
  | .versionR _ => dbind VersionResponse.dec fun x => dpure (.versionR x)
  | .authT _ => dbind AuthRequest.dec fun x => dpure (.authT x)
  | .authR _ => dbind AuthResponse.dec fun x => dpure (.authR x)
  | .attachT _ => dbind AttachRequest.dec fun x => dpure (.attachT x)
  | .attachR _ => dbind AttachResponse.dec fun x => dpure (.attachR x)
  | .errorR _ => dbind ErrorResponse.dec fun x => dpure (.errorR x)
  | .flushT _ => dbind FlushRequest.dec fun x => dpure (.flushT x)
  | .flushR _ => dbind FlushResponse.dec fun x => dpure (.flushR x)
  | .walkT _ => dbind WalkRequest.dec fun x => dpure (.walkT x)
  | .walkR _ => dbind WalkResponse.dec fun x => dpure (.walkR x)
  | .openT _ => dbind OpenRequest.dec fun x => dpure (.openT x)
  | .openR _ => dbind OpenResponse.dec fun x => dpure (.openR x)
  | .createT _ => dbind CreateRequest.dec fun x => dpure (.createT x)
  | .createR _ => dbind CreateResponse.dec fun x => dpure (.createR x)
  | .readT _ => dbind ReadRequest.dec fun x => dpure (.readT x)
  | .readR _ => dbind ReadResponse.dec fun x => dpure (.readR x)
  | .writeT _ => dbind WriteRequest.dec fun x => dpure (.writeT x)
  | .writeR _ => dbind WriteResponse.dec fun x => dpure (.writeR x)
  | .clunkT _ => dbind ClunkRequest.dec fun x => dpure (.clunkT x)
  | .clunkR _ => dbind ClunkResponse.dec fun x => dpure (.clunkR x)
  | .removeT _ => dbind RemoveRequest.dec fun x => dpure (.removeT x)
  | .removeR _ => dbind RemoveResponse.dec fun x => dpure (.removeR x)
  | .statT _ => dbind StatRequest.dec fun x => dpure (.statT x)
  | .statR _ => dbind StatResponse.dec fun x => dpure (.statR x)
  | .wstatT _ => dbind WriteStatRequest.dec fun x => dpure (.wstatT x)
  | .wstatR _ => dbind WriteStatResponse.dec fun x => dpure (.wstatR x)

/- ### Header and full-frame codec (`protocol/wrapper.go`) -/

/-- `DecodeHdr`: read `size` (`uint32`) and the type byte from the raw
stream. -/
def DecodeHdr (b : List Nat) : Except DErr ((Nat × Nat) × List Nat) :=
  if 4 ≤ b.length then
    if 1 ≤ (b.drop 4).length then
      .ok ((fromLE (b.take 4), fromLE ((b.drop 4).take 1)), (b.drop 4).drop 1)
    else .error .eof
  else .error .eof

/-- The message-type switch inside `Decode` (`wrapper.go` lines 68–233).
Note this switch — unlike `MessageTypeToMessage` — decodes `Rremove`
correctly into a `RemoveResponse`. -/
def decodeBodySwitch (mt : Nat) : DecM Msg :=
  if mt = Tversion then dbind VersionRequest.dec fun x => dpure (.versionT x)
  else if mt = Rversion then dbind VersionResponse.dec fun x => dpure (.versionR x)
  else if mt = Tauth then dbind AuthRequest.dec fun x => dpure (.authT x)
  else if mt = Rauth then dbind AuthResponse.dec fun x => dpure (.authR x)
  else if mt = Tattach then dbind AttachRequest.dec fun x => dpure (.attachT x)
  else if mt = Rattach then dbind AttachResponse.dec fun x => dpure (.attachR x)
  else if mt = Rerror then dbind ErrorResponse.dec fun x => dpure (.errorR x)
  else if mt = Tflush then dbind FlushRequest.dec fun x => dpure (.flushT x)
  else if mt = Rflush then dbind FlushResponse.dec fun x => dpure (.flushR x)
  else if mt = Twalk then dbind WalkRequest.dec fun x => dpure (.walkT x)
  else if mt = Rwalk then dbind WalkResponse.dec fun x => dpure (.walkR x)
  else if mt = Topen then dbind OpenRequest.dec fun x => dpure (.openT x)
  else if mt = Ropen then dbind OpenResponse.dec fun x => dpure (.openR x)
  else if mt = Tcreate then dbind CreateRequest.dec fun x => dpure (.createT x)
  else if mt = Rcreate then dbind CreateResponse.dec fun x => dpure (.createR x)
  else if mt = Tread then dbind ReadRequest.dec fun x => dpure (.readT x)
  else if mt = Rread then dbind ReadResponse.dec fun x => dpure (.readR x)
  else if mt = Twrite then dbind WriteRequest.dec fun x => dpure (.writeT x)
  else if mt = Rwrite then dbind WriteResponse.dec fun x => dpure (.writeR x)
  else if mt = Tclunk then dbind ClunkRequest.dec fun x => dpure (.clunkT x)
  else if mt = Rclunk then dbind ClunkResponse.dec fun x => dpure (.clunkR x)
  else if mt = Tremove then dbind RemoveRequest.dec fun x => dpure (.removeT x)
  else if mt = Rremove then dbind RemoveResponse.dec fun x => dpure (.removeR x)
  else if mt = Tstat then dbind StatRequest.dec fun x => dpure (.statT x)
  else if mt = Rstat then dbind StatResponse.dec fun x => dpure (.statR x)
  else if mt = Twstat then dbind WriteStatRequest.dec fun x => dpure (.wstatT x)
  else if mt = Rwstat then dbind WriteStatResponse.dec fun x => dpure (.wstatR x)
  else derror .unknownMessageType

/-- `Decode`: header, then the body through an `io.LimitedReader` with
budget `int64(size) - HeaderSize`.  Returns the message and the bytes of
the underlying stream left unconsumed. -/
def Decode (b : List Nat) : Except DErr (Msg × List Nat) :=
  match DecodeHdr b with
  | .error e => .error e
  | .ok ((size, mt), rest) =>
    match decodeBodySwitch mt ⟨rest, (size : Int) - (HeaderSize : Int)⟩ with
    | .error e => .error e
    | .ok (m, s) => .ok (m, s.rem)

/-- `Encode`: `uint32` size (truncating), type byte, body. -/
def Encode (m : Msg) : List Nat :=
  WriteUint32 (m.EncodedLength + HeaderSize) ++
    WriteByte (MessageToMessageType m) ++ m.body

/- ### Encoded-length accuracy (bodies) -/

@[simp] theorem length_WriteUint16 (v : Nat) : (WriteUint16 v).length = 2 := by
  simp [WriteUint16]

@[simp] theorem length_WriteUint32 (v : Nat) : (WriteUint32 v).length = 4 := by
  simp [WriteUint32]

@[simp] theorem length_WriteUint64 (v : Nat) : (WriteUint64 v).length = 8 := by
  simp [WriteUint64]

@[simp] theorem length_WriteByte (v : Nat) : (WriteByte v).length = 1 := by
  simp [WriteByte]

@[simp] theorem length_WriteString (s : List Nat) :
    (WriteString s).length = 2 + s.length := by
  simp [WriteString]

@[simp] theorem length_encNames (l : List (List Nat)) :
    (encNames l).length = strsLen l := by
  induction l with
  | nil => rfl
  | cons s ss ih => simp [encNames, strsLen, ih]

@[simp] theorem length_encQids (l : List Qid) :
    (encQids l).length = 13 * l.length := by
  induction l with
  | nil => rfl
  | cons q qs ih =>
    simp [encQids, ih]
    ring

/-- Each variant's `Encode` writes exactly `EncodedLength` body bytes,
whatever the field values (length-field truncation affects values, never
byte counts). -/
theorem length_body (m : Msg) : m.body.length = m.EncodedLength := by
  cases m <;>
    simp [Msg.body, Msg.EncodedLength, VersionRequest.Encode,
      VersionRequest.EncodedLength, VersionResponse.Encode,
      VersionResponse.EncodedLength, AuthRequest.Encode,
      AuthRequest.EncodedLength, AuthResponse.Encode,
      AuthResponse.EncodedLength, AttachRequest.Encode,
      AttachRequest.EncodedLength, AttachResponse.Encode,
      AttachResponse.EncodedLength, ErrorResponse.Encode,
      ErrorResponse.EncodedLength, FlushRequest.Encode,
      FlushRequest.EncodedLength, FlushResponse.Encode,
      FlushResponse.EncodedLength, WalkRequest.Encode,
      WalkRequest.EncodedLength, WalkResponse.Encode,
      WalkResponse.EncodedLength, OpenRequest.Encode,
      OpenRequest.EncodedLength, OpenResponse.Encode,
      OpenResponse.EncodedLength, CreateRequest.Encode,
      CreateRequest.EncodedLength, CreateResponse.Encode,
      CreateResponse.EncodedLength, ReadRequest.Encode,
      ReadRequest.EncodedLength, ReadResponse.Encode,
      ReadResponse.EncodedLength, WriteRequest.Encode,
      WriteRequest.EncodedLength, WriteResponse.Encode,
      WriteResponse.EncodedLength, ClunkRequest.Encode,
      ClunkRequest.EncodedLength, ClunkResponse.Encode,
      ClunkResponse.EncodedLength, RemoveRequest.Encode,
      RemoveRequest.EncodedLength, RemoveResponse.Encode,
      RemoveResponse.EncodedLength, StatRequest.Encode,
      StatRequest.EncodedLength, StatResponse.Encode,
      StatResponse.EncodedLength, WriteStatRequest.Encode,
      WriteStatRequest.EncodedLength, WriteStatResponse.Encode,
      WriteStatResponse.EncodedLength] <;>
    omega

/-- The full frame is always `EncodedLength + 5` bytes long. -/
theorem length_Encode (m : Msg) : (Encode m).length = m.EncodedLength + 5 := by
  simp [Encode, length_body, HeaderSize]
  omega

/- ### Wire-width bounds per variant

In Go the fixed-width fields carry these bounds in their types
(`uint16` tags, `uint32` fids, …); in this `Nat` model they are stated
explicitly, next to the variable-length bounds of the claim. -/

def Qid.fits (q : Qid) : Prop :=
  q.Typ < 2 ^ 8 ∧ q.Version < 2 ^ 32 ∧ q.Path < 2 ^ 64

instance (q : Qid) : Decidable q.fits := by
  unfold Qid.fits
  infer_instance

def Msg.fits : Msg → Prop
  | .versionT x => x.Tag < 2 ^ 16 ∧ x.MaxSize < 2 ^ 32 ∧ x.Version.length < 2 ^ 16
  | .versionR x => x.Tag < 2 ^ 16 ∧ x.MaxSize < 2 ^ 32 ∧ x.Version.length < 2 ^ 16
  | .authT x => x.Tag < 2 ^ 16 ∧ x.AuthFid < 2 ^ 32 ∧
      x.Username.length < 2 ^ 16 ∧ x.Service.length < 2 ^ 16
  | .authR x => x.Tag < 2 ^ 16 ∧ x.AuthQid.fits
  | .attachT x => x.Tag < 2 ^ 16 ∧ x.Fid < 2 ^ 32 ∧ x.AuthFid < 2 ^ 32 ∧
      x.Username.length < 2 ^ 16 ∧ x.Service.length < 2 ^ 16
  | .attachR x => x.Tag < 2 ^ 16 ∧ x.Qid.fits
  | .errorR x => x.Tag < 2 ^ 16 ∧ x.Error.length < 2 ^ 16
  | .flushT x => x.Tag < 2 ^ 16 ∧ x.OldTag < 2 ^ 16
  | .flushR x => x.Tag < 2 ^ 16
  | .walkT x => x.Tag < 2 ^ 16 ∧ x.Fid < 2 ^ 32 ∧ x.NewFid < 2 ^ 32 ∧
      x.Names.length < 2 ^ 16 ∧ ∀ s ∈ x.Names, s.length < 2 ^ 16
  | .walkR x => x.Tag < 2 ^ 16 ∧ x.Qids.length < 2 ^ 16 ∧ ∀ q ∈ x.Qids, q.fits
  | .openT x => x.Tag < 2 ^ 16 ∧ x.Fid < 2 ^ 32 ∧ x.Mode < 2 ^ 8
  | .openR x => x.Tag < 2 ^ 16 ∧ x.Qid.fits ∧ x.IOUnit < 2 ^ 32
  | .createT x => x.Tag < 2 ^ 16 ∧ x.Fid < 2 ^ 32 ∧ x.Name.length < 2 ^ 16 ∧
      x.Permissions < 2 ^ 32 ∧ x.Mode < 2 ^ 8
  | .createR x => x.Tag < 2 ^ 16 ∧ x.Qid.fits ∧ x.IOUnit < 2 ^ 32
  | .readT x => x.Tag < 2 ^ 16 ∧ x.Fid < 2 ^ 32 ∧ x.Offset < 2 ^ 64 ∧
      x.Count < 2 ^ 32
  | .readR x => x.Tag < 2 ^ 16 ∧ x.Data.length < 2 ^ 32
  | .writeT x => x.Tag < 2 ^ 16 ∧ x.Fid < 2 ^ 32 ∧ x.Offset < 2 ^ 64 ∧
      x.Data.length < 2 ^ 32
  | .writeR x => x.Tag < 2 ^ 16 ∧ x.Count < 2 ^ 32
  | .clunkT x => x.Tag < 2 ^ 16 ∧ x.Fid < 2 ^ 32
  | .clunkR x => x.Tag < 2 ^ 16
  | .removeT x => x.Tag < 2 ^ 16 ∧ x.Fid < 2 ^ 32
  | .removeR x => x.Tag < 2 ^ 16
  | .statT x => x.Tag < 2 ^ 16 ∧ x.Fid < 2 ^ 32
  | .statR x => x.Tag < 2 ^ 16 ∧ x.Stat.fits
  | .wstatT x => x.Tag < 2 ^ 16 ∧ x.Fid < 2 ^ 32 ∧ x.Stat.fits
  | .wstatR x => x.Tag < 2 ^ 16

instance (m : Msg) : Decidable m.fits := by
  cases m <;> (unfold Msg.fits; infer_instance)

/- ### Round-trip lemmas, one per variant -/

theorem dlist_readString (ns : List (List Nat)) (rest : List Nat) (n : Int)
    (hf : ∀ s ∈ ns, s.length < 2 ^ 16)
    (hn : ((strsLen ns : Nat) : Int) ≤ n) :
    dlist ns.length ReadString ⟨encNames ns ++ rest, n⟩ =
      .ok (ns, ⟨rest, n - ((strsLen ns : Nat) : Int)⟩) := by
  induction ns generalizing n with
  | nil => simp [dlist, encNames, dpure, strsLen]
  | cons s ss ih =>
    have hn1 : 2 + (s.length : Int) + ((strsLen ss : Nat) : Int) ≤ n := by
      simp only [strsLen] at hn
      push_cast at hn ⊢
      omega
    rw [show (s :: ss).length = ss.length + 1 from rfl, dlist, encNames,
      List.append_assoc,
      dbind_ok (readString_write (hf s (by simp)) (by omega)),
      dbind_ok (ih _ (fun x hx => hf x (List.mem_cons_of_mem _ hx)) (by omega)),
      dpure]
    have harith : n - (2 + (s.length : Int)) - ((strsLen ss : Nat) : Int) =
        n - ((strsLen (s :: ss) : Nat) : Int) := by
      simp only [strsLen]
      push_cast
      ring
    rw [harith]

theorem dlist_qid (qs : List Qid) (rest : List Nat) (n : Int)
    (hf : ∀ q ∈ qs, q.fits) (hn : ((13 * qs.length : Nat) : Int) ≤ n) :
    dlist qs.length Qid.dec ⟨encQids qs ++ rest, n⟩ =
      .ok (qs, ⟨rest, n - ((13 * qs.length : Nat) : Int)⟩) := by
  induction qs generalizing n with
  | nil => simp [dlist, encQids, dpure]
  | cons q qs ih =>
    obtain ⟨h1, h2, h3⟩ := hf q (by simp)
    have hn1 : (13 : Int) + 13 * (qs.length : Int) ≤ n := by
      simp only [List.length_cons] at hn
      push_cast at hn ⊢
      omega
    rw [show (q :: qs).length = qs.length + 1 from rfl, dlist, encQids,
      List.append_assoc,
      dbind_ok (Qid_dec_enc q _ _ h1 h2 h3 (by omega)),
      dbind_ok (ih _ (fun x hx => hf x (List.mem_cons_of_mem _ hx))
        (by push_cast; omega)),
      dpure]
    have harith : n - 13 - ((13 * qs.length : Nat) : Int) =
        n - ((13 * (qs.length + 1) : Nat) : Int) := by
      push_cast
      ring
    rw [harith]

theorem VersionRequest_dec_enc (x : VersionRequest) (rest : List Nat) (n : Int)
    (h1 : x.Tag < 2 ^ 16) (h2 : x.MaxSize < 2 ^ 32)
    (h3 : x.Version.length < 2 ^ 16) (hn : (x.EncodedLength : Int) ≤ n) :
    VersionRequest.dec ⟨x.Encode ++ rest, n⟩ =
      .ok (x, ⟨rest, n - (x.EncodedLength : Int)⟩) := by
  have hn' : 2 + 4 + (2 + (x.Version.length : Int)) ≤ n := by
    simp only [VersionRequest.EncodedLength] at hn
    push_cast at hn ⊢
    omega
  rw [VersionRequest.dec, VersionRequest.Encode]
  simp only [ReadTag, List.append_assoc]
  rw [dbind_ok (readU16_toLE h1 (by omega)),
    dbind_ok (readU32_toLE h2 (by omega)),
    dbind_ok (readString_write h3 (by omega)), dpure]
  have harith : n - 2 - 4 - (2 + (x.Version.length : Int)) =
      n - (x.EncodedLength : Int) := by
    simp only [VersionRequest.EncodedLength]
    push_cast
    ring
  rw [harith]

theorem VersionResponse_dec_enc (x : VersionResponse) (rest : List Nat) (n : Int)
    (h1 : x.Tag < 2 ^ 16) (h2 : x.MaxSize < 2 ^ 32)
    (h3 : x.Version.length < 2 ^ 16) (hn : (x.EncodedLength : Int) ≤ n) :
    VersionResponse.dec ⟨x.Encode ++ rest, n⟩ =
      .ok (x, ⟨rest, n - (x.EncodedLength : Int)⟩) := by
  have hn' : 2 + 4 + (2 + (x.Version.length : Int)) ≤ n := by
    simp only [VersionResponse.EncodedLength] at hn
    push_cast at hn ⊢
    omega
  rw [VersionResponse.dec, VersionResponse.Encode]
  simp only [ReadTag, List.append_assoc]
  rw [dbind_ok (readU16_toLE h1 (by omega)),
    dbind_ok (readU32_toLE h2 (by omega)),
    dbind_ok (readString_write h3 (by omega)), dpure]
  have harith : n - 2 - 4 - (2 + (x.Version.length : Int)) =
      n - (x.EncodedLength : Int) := by
    simp only [VersionResponse.EncodedLength]
    push_cast
    ring
  rw [harith]

theorem AuthRequest_dec_enc (x : AuthRequest) (rest : List Nat) (n : Int)
    (h1 : x.Tag < 2 ^ 16) (h2 : x.AuthFid < 2 ^ 32)
    (h3 : x.Username.length < 2 ^ 16) (h4 : x.Service.length < 2 ^ 16)
    (hn : (x.EncodedLength : Int) ≤ n) :
    AuthRequest.dec ⟨x.Encode ++ rest, n⟩ =
      .ok (x, ⟨rest, n - (x.EncodedLength : Int)⟩) := by
  have hn' : 2 + 4 + (2 + (x.Username.length : Int)) +
      (2 + (x.Service.length : Int)) ≤ n := by
    simp only [AuthRequest.EncodedLength] at hn
    push_cast at hn ⊢
    omega
  rw [AuthRequest.dec, AuthRequest.Encode]
  simp only [ReadTag, ReadFid, List.append_assoc]
  rw [dbind_ok (readU16_toLE h1 (by omega)),
    dbind_ok (readU32_toLE h2 (by omega)),
    dbind_ok (readString_write h3 (by omega)),
    dbind_ok (readString_write h4 (by omega)), dpure]
  have harith : n - 2 - 4 - (2 + (x.Username.length : Int)) -
      (2 + (x.Service.length : Int)) = n - (x.EncodedLength : Int) := by
    simp only [AuthRequest.EncodedLength]
    push_cast
    ring
  rw [harith]

theorem AuthResponse_dec_enc (x : AuthResponse) (rest : List Nat) (n : Int)
    (h1 : x.Tag < 2 ^ 16) (h2 : x.AuthQid.fits)
    (hn : (x.EncodedLength : Int) ≤ n) :
    AuthResponse.dec ⟨x.Encode ++ rest, n⟩ =
      .ok (x, ⟨rest, n - (x.EncodedLength : Int)⟩) := by
  obtain ⟨hq1, hq2, hq3⟩ := h2
  have hn' : (15 : Int) ≤ n := by
    simp only [AuthResponse.EncodedLength] at hn
    push_cast at hn
    omega
  rw [AuthResponse.dec, AuthResponse.Encode]
  simp only [ReadTag, List.append_assoc]
  rw [dbind_ok (readU16_toLE h1 (by omega)),
    dbind_ok (G9p.Qid_dec_enc x.AuthQid _ _ hq1 hq2 hq3 (by omega)), dpure]
  have harith : n - 2 - 13 = n - ((AuthResponse.EncodedLength x : Nat) : Int) := by
    simp only [AuthResponse.EncodedLength]
    push_cast
    ring
  rw [harith]

theorem AttachRequest_dec_enc (x : AttachRequest) (rest : List Nat) (n : Int)
    (h1 : x.Tag < 2 ^ 16) (h2 : x.Fid < 2 ^ 32) (h3 : x.AuthFid < 2 ^ 32)
    (h4 : x.Username.length < 2 ^ 16) (h5 : x.Service.length < 2 ^ 16)
    (hn : (x.EncodedLength : Int) ≤ n) :
    AttachRequest.dec ⟨x.Encode ++ rest, n⟩ =
      .ok (x, ⟨rest, n - (x.EncodedLength : Int)⟩) := by
  have hn' : 2 + 4 + 4 + (2 + (x.Username.length : Int)) +
      (2 + (x.Service.length : Int)) ≤ n := by
    simp only [AttachRequest.EncodedLength] at hn
    push_cast at hn ⊢
    omega
  rw [AttachRequest.dec, AttachRequest.Encode]
  simp only [ReadTag, ReadFid, List.append_assoc]
  rw [dbind_ok (readU16_toLE h1 (by omega)),
    dbind_ok (readU32_toLE h2 (by omega)),
    dbind_ok (readU32_toLE h3 (by omega)),
    dbind_ok (readString_write h4 (by omega)),
    dbind_ok (readString_write h5 (by omega)), dpure]
  have harith : n - 2 - 4 - 4 - (2 + (x.Username.length : Int)) -
      (2 + (x.Service.length : Int)) = n - (x.EncodedLength : Int) := by
    simp only [AttachRequest.EncodedLength]
    push_cast
    ring
  rw [harith]

theorem AttachResponse_dec_enc (x : AttachResponse) (rest : List Nat) (n : Int)
    (h1 : x.Tag < 2 ^ 16) (h2 : x.Qid.fits)
    (hn : (x.EncodedLength : Int) ≤ n) :
    AttachResponse.dec ⟨x.Encode ++ rest, n⟩ =
      .ok (x, ⟨rest, n - (x.EncodedLength : Int)⟩) := by
  obtain ⟨hq1, hq2, hq3⟩ := h2
  have hn' : (15 : Int) ≤ n := by
    simp only [AttachResponse.EncodedLength] at hn
    push_cast at hn
    omega
  rw [AttachResponse.dec, AttachResponse.Encode]
  simp only [ReadTag, List.append_assoc]
  rw [dbind_ok (readU16_toLE h1 (by omega)),
    dbind_ok (G9p.Qid_dec_enc x.Qid _ _ hq1 hq2 hq3 (by omega)), dpure]
  have harith : n - 2 - 13 = n - ((AttachResponse.EncodedLength x : Nat) : Int) := by
    simp only [AttachResponse.EncodedLength]
    push_cast
    ring
  rw [harith]

theorem ErrorResponse_dec_enc (x : ErrorResponse) (rest : List Nat) (n : Int)
    (h1 : x.Tag < 2 ^ 16) (h2 : x.Error.length < 2 ^ 16)
    (hn : (x.EncodedLength : Int) ≤ n) :
    ErrorResponse.dec ⟨x.Encode ++ rest, n⟩ =
      .ok (x, ⟨rest, n - (x.EncodedLength : Int)⟩) := by
  have hn' : 2 + (2 + (x.Error.length : Int)) ≤ n := by
    simp only [ErrorResponse.EncodedLength] at hn
    push_cast at hn ⊢
    omega
  rw [ErrorResponse.dec, ErrorResponse.Encode]
  simp only [ReadTag, List.append_assoc]
  rw [dbind_ok (readU16_toLE h1 (by omega)),
    dbind_ok (readString_write h2 (by omega)), dpure]
  have harith : n - 2 - (2 + (x.Error.length : Int)) =
      n - (x.EncodedLength : Int) := by
    simp only [ErrorResponse.EncodedLength]
    push_cast
    ring
  rw [harith]

theorem FlushRequest_dec_enc (x : FlushRequest) (rest : List Nat) (n : Int)
    (h1 : x.Tag < 2 ^ 16) (h2 : x.OldTag < 2 ^ 16)
    (hn : (x.EncodedLength : Int) ≤ n) :
    FlushRequest.dec ⟨x.Encode ++ rest, n⟩ =
      .ok (x, ⟨rest, n - (x.EncodedLength : Int)⟩) := by
  have hn' : (4 : Int) ≤ n := by
    simp only [FlushRequest.EncodedLength] at hn
    push_cast at hn
    omega
  rw [FlushRequest.dec, FlushRequest.Encode]
  simp only [ReadTag, List.append_assoc]
  rw [dbind_ok (readU16_toLE h1 (by omega)),
    dbind_ok (readU16_toLE h2 (by omega)), dpure]
  have harith : n - 2 - 2 = n - ((FlushRequest.EncodedLength x : Nat) : Int) := by
    simp only [FlushRequest.EncodedLength]
    push_cast
    ring
  rw [harith]

theorem FlushResponse_dec_enc (x : FlushResponse) (rest : List Nat) (n : Int)
    (h1 : x.Tag < 2 ^ 16) (hn : (x.EncodedLength : Int) ≤ n) :
    FlushResponse.dec ⟨x.Encode ++ rest, n⟩ =
      .ok (x, ⟨rest, n - (x.EncodedLength : Int)⟩) := by
  have hn' : (2 : Int) ≤ n := by
    simp only [FlushResponse.EncodedLength] at hn
    push_cast at hn
    omega
  rw [FlushResponse.dec, FlushResponse.Encode]
  simp only [ReadTag]
  rw [dbind_ok (readU16_toLE h1 (by omega)), dpure]
  have harith : n - 2 = n - ((FlushResponse.EncodedLength x : Nat) : Int) := by
    simp only [FlushResponse.EncodedLength]
    push_cast
    ring
  rw [harith]

theorem WalkRequest_dec_enc (x : WalkRequest) (rest : List Nat) (n : Int)
    (h1 : x.Tag < 2 ^ 16) (h2 : x.Fid < 2 ^ 32) (h3 : x.NewFid < 2 ^ 32)
    (h4 : x.Names.length < 2 ^ 16) (h5 : ∀ s ∈ x.Names, s.length < 2 ^ 16)
    (hn : (x.EncodedLength : Int) ≤ n) :
    WalkRequest.dec ⟨x.Encode ++ rest, n⟩ =
      .ok (x, ⟨rest, n - (x.EncodedLength : Int)⟩) := by
  have hn' : 2 + 4 + 4 + 2 + ((strsLen x.Names : Nat) : Int) ≤ n := by
    simp only [WalkRequest.EncodedLength] at hn
    push_cast at hn ⊢
    omega
  have hpos : (0 : Int) ≤ ((strsLen x.Names : Nat) : Int) := by positivity
  rw [WalkRequest.dec, WalkRequest.Encode]
  simp only [ReadTag, ReadFid, List.append_assoc]
  rw [dbind_ok (readU16_toLE h1 (by omega)),
    dbind_ok (readU32_toLE h2 (by omega)),
    dbind_ok (readU32_toLE h3 (by omega)),
    dbind_ok (readU16_toLE h4 (by omega)),
    dbind_ok (dlist_readString x.Names rest _ h5 (by omega)), dpure]
  have harith : n - 2 - 4 - 4 - 2 - ((strsLen x.Names : Nat) : Int) =
      n - (x.EncodedLength : Int) := by
    simp only [WalkRequest.EncodedLength]
    push_cast
    ring
  rw [harith]

theorem WalkResponse_dec_enc (x : WalkResponse) (rest : List Nat) (n : Int)
    (h1 : x.Tag < 2 ^ 16) (h2 : x.Qids.length < 2 ^ 16)
    (h3 : ∀ q ∈ x.Qids, q.fits) (hn : (x.EncodedLength : Int) ≤ n) :
    WalkResponse.dec ⟨x.Encode ++ rest, n⟩ =
      .ok (x, ⟨rest, n - (x.EncodedLength : Int)⟩) := by
  have hn' : 2 + 2 + ((13 * x.Qids.length : Nat) : Int) ≤ n := by
    simp only [WalkResponse.EncodedLength] at hn
    push_cast at hn ⊢
    omega
  have hpos : (0 : Int) ≤ ((13 * x.Qids.length : Nat) : Int) := by positivity
  rw [WalkResponse.dec, WalkResponse.Encode]
  simp only [ReadTag, List.append_assoc]
  rw [dbind_ok (readU16_toLE h1 (by omega)),
    dbind_ok (readU16_toLE h2 (by omega)),
    dbind_ok (dlist_qid x.Qids rest _ h3 (by omega)), dpure]
  have harith : n - 2 - 2 - ((13 * x.Qids.length : Nat) : Int) =
      n - (x.EncodedLength : Int) := by
    simp only [WalkResponse.EncodedLength]
    push_cast
    ring
  rw [harith]

theorem OpenRequest_dec_enc (x : OpenRequest) (rest : List Nat) (n : Int)
    (h1 : x.Tag < 2 ^ 16) (h2 : x.Fid < 2 ^ 32) (h3 : x.Mode < 2 ^ 8)
    (hn : (x.EncodedLength : Int) ≤ n) :
    OpenRequest.dec ⟨x.Encode ++ rest, n⟩ =
      .ok (x, ⟨rest, n - (x.EncodedLength : Int)⟩) := by
  have hn' : (7 : Int) ≤ n := by
    simp only [OpenRequest.EncodedLength] at hn
    push_cast at hn
    omega
  rw [OpenRequest.dec, OpenRequest.Encode]
  simp only [ReadTag, ReadFid, ReadOpenMode, List.append_assoc]
  rw [dbind_ok (readU16_toLE h1 (by omega)),
    dbind_ok (readU32_toLE h2 (by omega)),
    dbind_ok (readByte_toLE h3 (by omega)), dpure]
  have harith : n - 2 - 4 - 1 = n - ((OpenRequest.EncodedLength x : Nat) : Int) := by
    simp only [OpenRequest.EncodedLength]
    push_cast
    ring
  rw [harith]

theorem OpenResponse_dec_enc (x : OpenResponse) (rest : List Nat) (n : Int)
    (h1 : x.Tag < 2 ^ 16) (h2 : x.Qid.fits) (h3 : x.IOUnit < 2 ^ 32)
    (hn : (x.EncodedLength : Int) ≤ n) :
    OpenResponse.dec ⟨x.Encode ++ rest, n⟩ =
      .ok (x, ⟨rest, n - (x.EncodedLength : Int)⟩) := by
  obtain ⟨hq1, hq2, hq3⟩ := h2
  have hn' : (19 : Int) ≤ n := by
    simp only [OpenResponse.EncodedLength] at hn
    push_cast at hn
    omega
  rw [OpenResponse.dec, OpenResponse.Encode]
  simp only [ReadTag, List.append_assoc]
  rw [dbind_ok (readU16_toLE h1 (by omega)),
    dbind_ok (G9p.Qid_dec_enc x.Qid _ _ hq1 hq2 hq3 (by omega)),
    dbind_ok (readU32_toLE h3 (by omega)), dpure]
  have harith : n - 2 - 13 - 4 = n - ((OpenResponse.EncodedLength x : Nat) : Int) := by
    simp only [OpenResponse.EncodedLength]
    push_cast
    ring
  rw [harith]

theorem CreateRequest_dec_enc (x : CreateRequest) (rest : List Nat) (n : Int)
    (h1 : x.Tag < 2 ^ 16) (h2 : x.Fid < 2 ^ 32) (h3 : x.Name.length < 2 ^ 16)
    (h4 : x.Permissions < 2 ^ 32) (h5 : x.Mode < 2 ^ 8)
    (hn : (x.EncodedLength : Int) ≤ n) :
    CreateRequest.dec ⟨x.Encode ++ rest, n⟩ =
      .ok (x, ⟨rest, n - (x.EncodedLength : Int)⟩) := by
  have hn' : 2 + 4 + (2 + (x.Name.length : Int)) + 4 + 1 ≤ n := by
    simp only [CreateRequest.EncodedLength] at hn
    push_cast at hn ⊢
    omega
  rw [CreateRequest.dec, CreateRequest.Encode]
  simp only [ReadTag, ReadFid, ReadFileMode, ReadOpenMode, List.append_assoc]
  rw [dbind_ok (readU16_toLE h1 (by omega)),
    dbind_ok (readU32_toLE h2 (by omega)),
    dbind_ok (readString_write h3 (by omega)),
    dbind_ok (readU32_toLE h4 (by omega)),
    dbind_ok (readByte_toLE h5 (by omega)), dpure]
  have harith : n - 2 - 4 - (2 + (x.Name.length : Int)) - 4 - 1 =
      n - (x.EncodedLength : Int) := by
    simp only [CreateRequest.EncodedLength]
    push_cast
    ring
  rw [harith]

theorem CreateResponse_dec_enc (x : CreateResponse) (rest : List Nat) (n : Int)
    (h1 : x.Tag < 2 ^ 16) (h2 : x.Qid.fits) (h3 : x.IOUnit < 2 ^ 32)
    (hn : (x.EncodedLength : Int) ≤ n) :
    CreateResponse.dec ⟨x.Encode ++ rest, n⟩ =
      .ok (x, ⟨rest, n - (x.EncodedLength : Int)⟩) := by
  obtain ⟨hq1, hq2, hq3⟩ := h2
  have hn' : (19 : Int) ≤ n := by
    simp only [CreateResponse.EncodedLength] at hn
    push_cast at hn
    omega
  rw [CreateResponse.dec, CreateResponse.Encode]
  simp only [ReadTag, List.append_assoc]
  rw [dbind_ok (readU16_toLE h1 (by omega)),
    dbind_ok (G9p.Qid_dec_enc x.Qid _ _ hq1 hq2 hq3 (by omega)),
    dbind_ok (readU32_toLE h3 (by omega)), dpure]
  have harith : n - 2 - 13 - 4 = n - ((CreateResponse.EncodedLength x : Nat) : Int) := by
    simp only [CreateResponse.EncodedLength]
    push_cast
    ring
  rw [harith]

theorem ReadRequest_dec_enc (x : ReadRequest) (rest : List Nat) (n : Int)
    (h1 : x.Tag < 2 ^ 16) (h2 : x.Fid < 2 ^ 32) (h3 : x.Offset < 2 ^ 64)
    (h4 : x.Count < 2 ^ 32) (hn : (x.EncodedLength : Int) ≤ n) :
    ReadRequest.dec ⟨x.Encode ++ rest, n⟩ =
      .ok (x, ⟨rest, n - (x.EncodedLength : Int)⟩) := by
  have hn' : (18 : Int) ≤ n := by
    simp only [ReadRequest.EncodedLength] at hn
    push_cast at hn
    omega
  rw [ReadRequest.dec, ReadRequest.Encode]
  simp only [ReadTag, ReadFid, List.append_assoc]
  rw [dbind_ok (readU16_toLE h1 (by omega)),
    dbind_ok (readU32_toLE h2 (by omega)),
    dbind_ok (readU64_toLE h3 (by omega)),
    dbind_ok (readU32_toLE h4 (by omega)), dpure]
  have harith : n - 2 - 4 - 8 - 4 = n - ((ReadRequest.EncodedLength x : Nat) : Int) := by
    simp only [ReadRequest.EncodedLength]
    push_cast
    ring
  rw [harith]

theorem ReadResponse_dec_enc (x : ReadResponse) (rest : List Nat) (n : Int)
    (h1 : x.Tag < 2 ^ 16) (h2 : x.Data.length < 2 ^ 32)
    (hn : (x.EncodedLength : Int) ≤ n) :
    ReadResponse.dec ⟨x.Encode ++ rest, n⟩ =
      .ok (x, ⟨rest, n - (x.EncodedLength : Int)⟩) := by
  have hn' : 2 + 4 + (x.Data.length : Int) ≤ n := by
    simp only [ReadResponse.EncodedLength] at hn
    push_cast at hn ⊢
    omega
  rw [ReadResponse.dec, ReadResponse.Encode]
  simp only [ReadTag, List.append_assoc]
  rw [dbind_ok (readU16_toLE h1 (by omega)),
    dbind_ok (readU32_toLE h2 (by omega)),
    dbind_ok (readB_append (l := x.Data) (by omega)), dpure]
  have harith : n - 2 - 4 - (x.Data.length : Int) =
      n - (x.EncodedLength : Int) := by
    simp only [ReadResponse.EncodedLength]
    push_cast
    ring
  rw [harith]

theorem WriteRequest_dec_enc (x : WriteRequest) (rest : List Nat) (n : Int)
    (h1 : x.Tag < 2 ^ 16) (h2 : x.Fid < 2 ^ 32) (h3 : x.Offset < 2 ^ 64)
    (h4 : x.Data.length < 2 ^ 32) (hn : (x.EncodedLength : Int) ≤ n) :
    WriteRequest.dec ⟨x.Encode ++ rest, n⟩ =
      .ok (x, ⟨rest, n - (x.EncodedLength : Int)⟩) := by
  have hn' : 2 + 4 + 8 + 4 + (x.Data.length : Int) ≤ n := by
    simp only [WriteRequest.EncodedLength] at hn
    push_cast at hn ⊢
    omega
  rw [WriteRequest.dec, WriteRequest.Encode]
  simp only [ReadTag, ReadFid, List.append_assoc]
  rw [dbind_ok (readU16_toLE h1 (by omega)),
    dbind_ok (readU32_toLE h2 (by omega)),
    dbind_ok (readU64_toLE h3 (by omega)),
    dbind_ok (readU32_toLE h4 (by omega)),
    dbind_ok (readB_append (l := x.Data) (by omega)), dpure]
  have harith : n - 2 - 4 - 8 - 4 - (x.Data.length : Int) =
      n - (x.EncodedLength : Int) := by
    simp only [WriteRequest.EncodedLength]
    push_cast
    ring
  rw [harith]

theorem WriteResponse_dec_enc (x : WriteResponse) (rest : List Nat) (n : Int)
    (h1 : x.Tag < 2 ^ 16) (h2 : x.Count < 2 ^ 32)
    (hn : (x.EncodedLength : Int) ≤ n) :
    WriteResponse.dec ⟨x.Encode ++ rest, n⟩ =
      .ok (x, ⟨rest, n - (x.EncodedLength : Int)⟩) := by
  have hn' : (6 : Int) ≤ n := by
    simp only [WriteResponse.EncodedLength] at hn
    push_cast at hn
    omega
  rw [WriteResponse.dec, WriteResponse.Encode]
  simp only [ReadTag, List.append_assoc]
  rw [dbind_ok (readU16_toLE h1 (by omega)),
    dbind_ok (readU32_toLE h2 (by omega)), dpure]
  have harith : n - 2 - 4 = n - ((WriteResponse.EncodedLength x : Nat) : Int) := by
    simp only [WriteResponse.EncodedLength]
    push_cast
    ring
  rw [harith]

theorem ClunkRequest_dec_enc (x : ClunkRequest) (rest : List Nat) (n : Int)
    (h1 : x.Tag < 2 ^ 16) (h2 : x.Fid < 2 ^ 32)
    (hn : (x.EncodedLength : Int) ≤ n) :
    ClunkRequest.dec ⟨x.Encode ++ rest, n⟩ =
      .ok (x, ⟨rest, n - (x.EncodedLength : Int)⟩) := by
  have hn' : (6 : Int) ≤ n := by
    simp only [ClunkRequest.EncodedLength] at hn
    push_cast at hn
    omega
  rw [ClunkRequest.dec, ClunkRequest.Encode]
  simp only [ReadTag, ReadFid, List.append_assoc]
  rw [dbind_ok (readU16_toLE h1 (by omega)),
    dbind_ok (readU32_toLE h2 (by omega)), dpure]
  have harith : n - 2 - 4 = n - ((ClunkRequest.EncodedLength x : Nat) : Int) := by
    simp only [ClunkRequest.EncodedLength]
    push_cast
    ring
  rw [harith]

theorem ClunkResponse_dec_enc (x : ClunkResponse) (rest : List Nat) (n : Int)
    (h1 : x.Tag < 2 ^ 16) (hn : (x.EncodedLength : Int) ≤ n) :
    ClunkResponse.dec ⟨x.Encode ++ rest, n⟩ =
      .ok (x, ⟨rest, n - (x.EncodedLength : Int)⟩) := by
  have hn' : (2 : Int) ≤ n := by
    simp only [ClunkResponse.EncodedLength] at hn
    push_cast at hn
    omega
  rw [ClunkResponse.dec, ClunkResponse.Encode]
  simp only [ReadTag]
  rw [dbind_ok (readU16_toLE h1 (by omega)), dpure]
  have harith : n - 2 = n - ((ClunkResponse.EncodedLength x : Nat) : Int) := by
    simp only [ClunkResponse.EncodedLength]
    push_cast
    ring
  rw [harith]

theorem RemoveRequest_dec_enc (x : RemoveRequest) (rest : List Nat) (n : Int)
    (h1 : x.Tag < 2 ^ 16) (h2 : x.Fid < 2 ^ 32)
    (hn : (x.EncodedLength : Int) ≤ n) :
    RemoveRequest.dec ⟨x.Encode ++ rest, n⟩ =
      .ok (x, ⟨rest, n - (x.EncodedLength : Int)⟩) := by
  have hn' : (6 : Int) ≤ n := by
    simp only [RemoveRequest.EncodedLength] at hn
    push_cast at hn
    omega
  rw [RemoveRequest.dec, RemoveRequest.Encode]
  simp only [ReadTag, ReadFid, List.append_assoc]
  rw [dbind_ok (readU16_toLE h1 (by omega)),
    dbind_ok (readU32_toLE h2 (by omega)), dpure]
  have harith : n - 2 - 4 = n - ((RemoveRequest.EncodedLength x : Nat) : Int) := by
    simp only [RemoveRequest.EncodedLength]
    push_cast
    ring
  rw [harith]

theorem RemoveResponse_dec_enc (x : RemoveResponse) (rest : List Nat) (n : Int)
    (h1 : x.Tag < 2 ^ 16) (hn : (x.EncodedLength : Int) ≤ n) :
    RemoveResponse.dec ⟨x.Encode ++ rest, n⟩ =
      .ok (x, ⟨rest, n - (x.EncodedLength : Int)⟩) := by
  have hn' : (2 : Int) ≤ n := by
    simp only [RemoveResponse.EncodedLength] at hn
    push_cast at hn
    omega
  rw [RemoveResponse.dec, RemoveResponse.Encode]
  simp only [ReadTag]
  rw [dbind_ok (readU16_toLE h1 (by omega)), dpure]
  have harith : n - 2 = n - ((RemoveResponse.EncodedLength x : Nat) : Int) := by
    simp only [RemoveResponse.EncodedLength]
    push_cast
    ring
  rw [harith]

theorem StatRequest_dec_enc (x : StatRequest) (rest : List Nat) (n : Int)
    (h1 : x.Tag < 2 ^ 16) (h2 : x.Fid < 2 ^ 32)
    (hn : (x.EncodedLength : Int) ≤ n) :
    StatRequest.dec ⟨x.Encode ++ rest, n⟩ =
      .ok (x, ⟨rest, n - (x.EncodedLength : Int)⟩) := by
  have hn' : (6 : Int) ≤ n := by
    simp only [StatRequest.EncodedLength] at hn
    push_cast at hn
    omega
  rw [StatRequest.dec, StatRequest.Encode]
  simp only [ReadTag, ReadFid, List.append_assoc]
  rw [dbind_ok (readU16_toLE h1 (by omega)),
    dbind_ok (readU32_toLE h2 (by omega)), dpure]
  have harith : n - 2 - 4 = n - ((StatRequest.EncodedLength x : Nat) : Int) := by
    simp only [StatRequest.EncodedLength]
    push_cast
    ring
  rw [harith]

theorem StatResponse_dec_enc (x : StatResponse) (rest : List Nat) (n : Int)
    (h1 : x.Tag < 2 ^ 16) (h2 : x.Stat.fits)
    (hn : (x.EncodedLength : Int) ≤ n) :
    StatResponse.dec ⟨x.Encode ++ rest, n⟩ =
      .ok (x, ⟨rest, n - (x.EncodedLength : Int)⟩) := by
  have hn' : 2 + 2 + ((x.Stat.EncodedLength : Nat) : Int) ≤ n := by
    simp only [StatResponse.EncodedLength] at hn
    push_cast at hn ⊢
    omega
  have hpos : (0 : Int) ≤ ((x.Stat.EncodedLength : Nat) : Int) := by positivity
  rw [StatResponse.dec, StatResponse.Encode]
  simp only [ReadTag, List.append_assoc]
  rw [dbind_ok (readU16_toLE h1 (by omega)),
    dbind_ok (readU16_toLE_mod (by omega)),
    dbind_ok (G9p.Stat_dec_enc x.Stat _ _ h2 (by omega)), dpure]
  have harith : n - 2 - 2 - ((x.Stat.EncodedLength : Nat) : Int) =
      n - (x.EncodedLength : Int) := by
    simp only [StatResponse.EncodedLength]
    push_cast
    ring
  rw [harith]

theorem WriteStatRequest_dec_enc (x : WriteStatRequest) (rest : List Nat) (n : Int)
    (h1 : x.Tag < 2 ^ 16) (h2 : x.Fid < 2 ^ 32) (h3 : x.Stat.fits)
    (hn : (x.EncodedLength : Int) ≤ n) :
    WriteStatRequest.dec ⟨x.Encode ++ rest, n⟩ =
      .ok (x, ⟨rest, n - (x.EncodedLength : Int)⟩) := by
  have hn' : 2 + 4 + 2 + ((x.Stat.EncodedLength : Nat) : Int) ≤ n := by
    simp only [WriteStatRequest.EncodedLength] at hn
    push_cast at hn ⊢
    omega
  have hpos : (0 : Int) ≤ ((x.Stat.EncodedLength : Nat) : Int) := by positivity
  rw [WriteStatRequest.dec, WriteStatRequest.Encode]
  simp only [ReadTag, ReadFid, List.append_assoc]
  rw [dbind_ok (readU16_toLE h1 (by omega)),
    dbind_ok (readU32_toLE h2 (by omega)),
    dbind_ok (readU16_toLE_mod (by omega)),
    dbind_ok (G9p.Stat_dec_enc x.Stat _ _ h3 (by omega)), dpure]
  have harith : n - 2 - 4 - 2 - ((x.Stat.EncodedLength : Nat) : Int) =
      n - (x.EncodedLength : Int) := by
    simp only [WriteStatRequest.EncodedLength]
    push_cast
    ring
  rw [harith]

theorem WriteStatResponse_dec_enc (x : WriteStatResponse) (rest : List Nat) (n : Int)
    (h1 : x.Tag < 2 ^ 16) (hn : (x.EncodedLength : Int) ≤ n) :
    WriteStatResponse.dec ⟨x.Encode ++ rest, n⟩ =
      .ok (x, ⟨rest, n - (x.EncodedLength : Int)⟩) := by
  have hn' : (2 : Int) ≤ n := by
    simp only [WriteStatResponse.EncodedLength] at hn
    push_cast at hn
    omega
  rw [WriteStatResponse.dec, WriteStatResponse.Encode]
  simp only [ReadTag]
  rw [dbind_ok (readU16_toLE h1 (by omega)), dpure]
  have harith : n - 2 = n - ((WriteStatResponse.EncodedLength x : Nat) : Int) := by
    simp only [WriteStatResponse.EncodedLength]
    push_cast
    ring
  rw [harith]

/- ### Frame-level codec lemmas -/

theorem DecodeHdr_enc {s t : Nat} (hs : s < 2 ^ 32) (ht : t < 2 ^ 8)
    (rest : List Nat) :
    DecodeHdr (WriteUint32 s ++ (WriteByte t ++ rest)) = .ok ((s, t), rest) := by
  have h4 : (WriteUint32 s).length = 4 := by simp
  have h1 : (WriteByte t).length = 1 := by simp
  rw [DecodeHdr]
  rw [if_pos (by simp)]
  rw [show (WriteUint32 s ++ (WriteByte t ++ rest)).take 4 = WriteUint32 s from by
      rw [← h4, List.take_left]]
  rw [show (WriteUint32 s ++ (WriteByte t ++ rest)).drop 4 = WriteByte t ++ rest from by
      rw [← h4, List.drop_left]]
  rw [if_pos (by simp)]
  rw [show (WriteByte t ++ rest).take 1 = WriteByte t from by rw [← h1, List.take_left]]
  rw [show (WriteByte t ++ rest).drop 1 = rest from by rw [← h1, List.drop_left]]
  rw [WriteUint32, WriteByte, fromLE_toLE_of_lt (by simpa using hs),
    fromLE_toLE_of_lt (by simpa using ht)]

theorem Decode_ok_of {b : List Nat} {size mt : Nat} {rest : List Nat} {m : Msg}
    {s : LR} (hh : DecodeHdr b = .ok ((size, mt), rest))
    (hb : decodeBodySwitch mt ⟨rest, (size : Int) - ((HeaderSize : Nat) : Int)⟩ =
      .ok (m, s)) :
    Decode b = .ok (m, s.rem) := by
  simp only [Decode, hh, hb]

theorem Decode_error_hdr {b : List Nat} {e : DErr}
    (hh : DecodeHdr b = .error e) : Decode b = .error e := by
  simp only [Decode, hh]

theorem Decode_error_body {b : List Nat} {size mt : Nat} {rest : List Nat}
    {e : DErr} (hh : DecodeHdr b = .ok ((size, mt), rest))
    (hb : decodeBodySwitch mt ⟨rest, (size : Int) - ((HeaderSize : Nat) : Int)⟩ =
      .error e) : Decode b = .error e := by
  simp only [Decode, hh, hb]

/-- Round-trip, direction 1: a fitting message whose whole frame size fits
in the `uint32` size field decodes from its own encoding, consuming the
body exactly. -/
theorem decode_encode (m : Msg) (hf : m.fits)
    (hsz : m.EncodedLength + 5 < 2 ^ 32) :
    Decode (Encode m) = .ok (m, []) := by
  cases m with
  | versionT x =>
    obtain ⟨h1, h2, h3⟩ := hf
    have hL : x.EncodedLength + HeaderSize < 2 ^ 32 := by
      simpa [HeaderSize, Msg.EncodedLength] using hsz
    have hh : DecodeHdr (Encode (.versionT x)) =
        .ok ((x.EncodedLength + HeaderSize, Tversion), x.Encode) := by
      rw [Encode]
      simp only [Msg.body, Msg.EncodedLength, MessageToMessageType, List.append_assoc]
      exact DecodeHdr_enc (t := Tversion) hL (by norm_num [Tversion]) _
    have hb : decodeBodySwitch Tversion
        ⟨x.Encode ++ [], ((x.EncodedLength + HeaderSize : Nat) : Int) - ((HeaderSize : Nat) : Int)⟩ =
        .ok (.versionT x, ⟨[], ((x.EncodedLength + HeaderSize : Nat) : Int) -
          ((HeaderSize : Nat) : Int) - (x.EncodedLength : Int)⟩) := by
      rw [show decodeBodySwitch Tversion =
          dbind VersionRequest.dec (fun y => dpure (.versionT y)) from rfl,
        dbind_ok (VersionRequest_dec_enc x [] _ h1 h2 h3 (by push_cast [HeaderSize]; omega)),
        dpure]
    rw [List.append_nil] at hb
    exact Decode_ok_of hh hb
  | versionR x =>
    obtain ⟨h1, h2, h3⟩ := hf
    have hL : x.EncodedLength + HeaderSize < 2 ^ 32 := by
      simpa [HeaderSize, Msg.EncodedLength] using hsz
    have hh : DecodeHdr (Encode (.versionR x)) =
        .ok ((x.EncodedLength + HeaderSize, Rversion), x.Encode) := by
      rw [Encode]
      simp only [Msg.body, Msg.EncodedLength, MessageToMessageType, List.append_assoc]
      exact DecodeHdr_enc (t := Rversion) hL (by norm_num [Rversion]) _
    have hb : decodeBodySwitch Rversion
        ⟨x.Encode ++ [], ((x.EncodedLength + HeaderSize : Nat) : Int) - ((HeaderSize : Nat) : Int)⟩ =
        .ok (.versionR x, ⟨[], ((x.EncodedLength + HeaderSize : Nat) : Int) -
          ((HeaderSize : Nat) : Int) - (x.EncodedLength : Int)⟩) := by
      rw [show decodeBodySwitch Rversion =
          dbind VersionResponse.dec (fun y => dpure (.versionR y)) from rfl,
        dbind_ok (VersionResponse_dec_enc x [] _ h1 h2 h3 (by push_cast [HeaderSize]; omega)),
        dpure]
    rw [List.append_nil] at hb
    exact Decode_ok_of hh hb
  | authT x =>
    obtain ⟨h1, h2, h3, h4⟩ := hf
    have hL : x.EncodedLength + HeaderSize < 2 ^ 32 := by
      simpa [HeaderSize, Msg.EncodedLength] using hsz
    have hh : DecodeHdr (Encode (.authT x)) =
        .ok ((x.EncodedLength + HeaderSize, Tauth), x.Encode) := by
      rw [Encode]
      simp only [Msg.body, Msg.EncodedLength, MessageToMessageType, List.append_assoc]
      exact DecodeHdr_enc (t := Tauth) hL (by norm_num [Tauth]) _
    have hb : decodeBodySwitch Tauth
        ⟨x.Encode ++ [], ((x.EncodedLength + HeaderSize : Nat) : Int) - ((HeaderSize : Nat) : Int)⟩ =
        .ok (.authT x, ⟨[], ((x.EncodedLength + HeaderSize : Nat) : Int) -
          ((HeaderSize : Nat) : Int) - (x.EncodedLength : Int)⟩) := by
      rw [show decodeBodySwitch Tauth =
          dbind AuthRequest.dec (fun y => dpure (.authT y)) from rfl,
        dbind_ok (AuthRequest_dec_enc x [] _ h1 h2 h3 h4 (by push_cast [HeaderSize]; omega)),
        dpure]
    rw [List.append_nil] at hb
    exact Decode_ok_of hh hb
  | authR x =>
    obtain ⟨h1, h2⟩ := hf
    have hL : x.EncodedLength + HeaderSize < 2 ^ 32 := by
      simpa [HeaderSize, Msg.EncodedLength] using hsz
    have hh : DecodeHdr (Encode (.authR x)) =
        .ok ((x.EncodedLength + HeaderSize, Rauth), x.Encode) := by
      rw [Encode]
      simp only [Msg.body, Msg.EncodedLength, MessageToMessageType, List.append_assoc]
      exact DecodeHdr_enc (t := Rauth) hL (by norm_num [Rauth]) _
    have hb : decodeBodySwitch Rauth
        ⟨x.Encode ++ [], ((x.EncodedLength + HeaderSize : Nat) : Int) - ((HeaderSize : Nat) : Int)⟩ =
        .ok (.authR x, ⟨[], ((x.EncodedLength + HeaderSize : Nat) : Int) -
          ((HeaderSize : Nat) : Int) - (x.EncodedLength : Int)⟩) := by
      rw [show decodeBodySwitch Rauth =
          dbind AuthResponse.dec (fun y => dpure (.authR y)) from rfl,
        dbind_ok (AuthResponse_dec_enc x [] _ h1 h2 (by push_cast [HeaderSize]; omega)),
        dpure]
    rw [List.append_nil] at hb
    exact Decode_ok_of hh hb
  | attachT x =>
    obtain ⟨h1, h2, h3, h4, h5⟩ := hf
    have hL : x.EncodedLength + HeaderSize < 2 ^ 32 := by
      simpa [HeaderSize, Msg.EncodedLength] using hsz
    have hh : DecodeHdr (Encode (.attachT x)) =
        .ok ((x.EncodedLength + HeaderSize, Tattach), x.Encode) := by
      rw [Encode]
      simp only [Msg.body, Msg.EncodedLength, MessageToMessageType, List.append_assoc]
      exact DecodeHdr_enc (t := Tattach) hL (by norm_num [Tattach]) _
    have hb : decodeBodySwitch Tattach
        ⟨x.Encode ++ [], ((x.EncodedLength + HeaderSize : Nat) : Int) - ((HeaderSize : Nat) : Int)⟩ =
        .ok (.attachT x, ⟨[], ((x.EncodedLength + HeaderSize : Nat) : Int) -
          ((HeaderSize : Nat) : Int) - (x.EncodedLength : Int)⟩) := by
      rw [show decodeBodySwitch Tattach =
          dbind AttachRequest.dec (fun y => dpure (.attachT y)) from rfl,
        dbind_ok (AttachRequest_dec_enc x [] _ h1 h2 h3 h4 h5 (by push_cast [HeaderSize]; omega)),
        dpure]
    rw [List.append_nil] at hb
    exact Decode_ok_of hh hb
  | attachR x =>
    obtain ⟨h1, h2⟩ := hf
    have hL : x.EncodedLength + HeaderSize < 2 ^ 32 := by
      simpa [HeaderSize, Msg.EncodedLength] using hsz
    have hh : DecodeHdr (Encode (.attachR x)) =
        .ok ((x.EncodedLength + HeaderSize, Rattach), x.Encode) := by
      rw [Encode]
      simp only [Msg.body, Msg.EncodedLength, MessageToMessageType, List.append_assoc]
      exact DecodeHdr_enc (t := Rattach) hL (by norm_num [Rattach]) _
    have hb : decodeBodySwitch Rattach
        ⟨x.Encode ++ [], ((x.EncodedLength + HeaderSize : Nat) : Int) - ((HeaderSize : Nat) : Int)⟩ =
        .ok (.attachR x, ⟨[], ((x.EncodedLength + HeaderSize : Nat) : Int) -
          ((HeaderSize : Nat) : Int) - (x.EncodedLength : Int)⟩) := by
      rw [show decodeBodySwitch Rattach =
          dbind AttachResponse.dec (fun y => dpure (.attachR y)) from rfl,
        dbind_ok (AttachResponse_dec_enc x [] _ h1 h2 (by push_cast [HeaderSize]; omega)),
        dpure]
    rw [List.append_nil] at hb
    exact Decode_ok_of hh hb
  | errorR x =>
    obtain ⟨h1, h2⟩ := hf
    have hL : x.EncodedLength + HeaderSize < 2 ^ 32 := by
      simpa [HeaderSize, Msg.EncodedLength] using hsz
    have hh : DecodeHdr (Encode (.errorR x)) =
        .ok ((x.EncodedLength + HeaderSize, Rerror), x.Encode) := by
      rw [Encode]
      simp only [Msg.body, Msg.EncodedLength, MessageToMessageType, List.append_assoc]
      exact DecodeHdr_enc (t := Rerror) hL (by norm_num [Rerror]) _
    have hb : decodeBodySwitch Rerror
        ⟨x.Encode ++ [], ((x.EncodedLength + HeaderSize : Nat) : Int) - ((HeaderSize : Nat) : Int)⟩ =
        .ok (.errorR x, ⟨[], ((x.EncodedLength + HeaderSize : Nat) : Int) -
          ((HeaderSize : Nat) : Int) - (x.EncodedLength : Int)⟩) := by
      rw [show decodeBodySwitch Rerror =
          dbind ErrorResponse.dec (fun y => dpure (.errorR y)) from rfl,
        dbind_ok (ErrorResponse_dec_enc x [] _ h1 h2 (by push_cast [HeaderSize]; omega)),
        dpure]
    rw [List.append_nil] at hb
    exact Decode_ok_of hh hb
  | flushT x =>
    obtain ⟨h1, h2⟩ := hf
    have hL : x.EncodedLength + HeaderSize < 2 ^ 32 := by
      simpa [HeaderSize, Msg.EncodedLength] using hsz
    have hh : DecodeHdr (Encode (.flushT x)) =
        .ok ((x.EncodedLength + HeaderSize, Tflush), x.Encode) := by
      rw [Encode]
      simp only [Msg.body, Msg.EncodedLength, MessageToMessageType, List.append_assoc]
      exact DecodeHdr_enc (t := Tflush) hL (by norm_num [Tflush]) _
    have hb : decodeBodySwitch Tflush
        ⟨x.Encode ++ [], ((x.EncodedLength + HeaderSize : Nat) : Int) - ((HeaderSize : Nat) : Int)⟩ =
        .ok (.flushT x, ⟨[], ((x.EncodedLength + HeaderSize : Nat) : Int) -
          ((HeaderSize : Nat) : Int) - (x.EncodedLength : Int)⟩) := by
      rw [show decodeBodySwitch Tflush =
          dbind FlushRequest.dec (fun y => dpure (.flushT y)) from rfl,
        dbind_ok (FlushRequest_dec_enc x [] _ h1 h2 (by push_cast [HeaderSize]; omega)),
        dpure]
    rw [List.append_nil] at hb
    exact Decode_ok_of hh hb
  | flushR x =>
    have hL : x.EncodedLength + HeaderSize < 2 ^ 32 := by
      simpa [HeaderSize, Msg.EncodedLength] using hsz
    have hh : DecodeHdr (Encode (.flushR x)) =
        .ok ((x.EncodedLength + HeaderSize, Rflush), x.Encode) := by
      rw [Encode]
      simp only [Msg.body, Msg.EncodedLength, MessageToMessageType, List.append_assoc]
      exact DecodeHdr_enc (t := Rflush) hL (by norm_num [Rflush]) _
    have hb : decodeBodySwitch Rflush
        ⟨x.Encode ++ [], ((x.EncodedLength + HeaderSize : Nat) : Int) - ((HeaderSize : Nat) : Int)⟩ =
        .ok (.flushR x, ⟨[], ((x.EncodedLength + HeaderSize : Nat) : Int) -
          ((HeaderSize : Nat) : Int) - (x.EncodedLength : Int)⟩) := by
      rw [show decodeBodySwitch Rflush =
          dbind FlushResponse.dec (fun y => dpure (.flushR y)) from rfl,
        dbind_ok (FlushResponse_dec_enc x [] _ hf (by push_cast [HeaderSize]; omega)),
        dpure]
    rw [List.append_nil] at hb
    exact Decode_ok_of hh hb
  | walkT x =>
    obtain ⟨h1, h2, h3, h4, h5⟩ := hf
    have hL : x.EncodedLength + HeaderSize < 2 ^ 32 := by
      simpa [HeaderSize, Msg.EncodedLength] using hsz
    have hh : DecodeHdr (Encode (.walkT x)) =
        .ok ((x.EncodedLength + HeaderSize, Twalk), x.Encode) := by
      rw [Encode]
      simp only [Msg.body, Msg.EncodedLength, MessageToMessageType, List.append_assoc]
      exact DecodeHdr_enc (t := Twalk) hL (by norm_num [Twalk]) _
    have hb : decodeBodySwitch Twalk
        ⟨x.Encode ++ [], ((x.EncodedLength + HeaderSize : Nat) : Int) - ((HeaderSize : Nat) : Int)⟩ =
        .ok (.walkT x, ⟨[], ((x.EncodedLength + HeaderSize : Nat) : Int) -
          ((HeaderSize : Nat) : Int) - (x.EncodedLength : Int)⟩) := by
      rw [show decodeBodySwitch Twalk =
          dbind WalkRequest.dec (fun y => dpure (.walkT y)) from rfl,
        dbind_ok (WalkRequest_dec_enc x [] _ h1 h2 h3 h4 h5 (by push_cast [HeaderSize]; omega)),
        dpure]
    rw [List.append_nil] at hb
    exact Decode_ok_of hh hb
  | walkR x =>
    obtain ⟨h1, h2, h3⟩ := hf
    have hL : x.EncodedLength + HeaderSize < 2 ^ 32 := by
      simpa [HeaderSize, Msg.EncodedLength] using hsz
    have hh : DecodeHdr (Encode (.walkR x)) =
        .ok ((x.EncodedLength + HeaderSize, Rwalk), x.Encode) := by
      rw [Encode]
      simp only [Msg.body, Msg.EncodedLength, MessageToMessageType, List.append_assoc]
      exact DecodeHdr_enc (t := Rwalk) hL (by norm_num [Rwalk]) _
    have hb : decodeBodySwitch Rwalk
        ⟨x.Encode ++ [], ((x.EncodedLength + HeaderSize : Nat) : Int) - ((HeaderSize : Nat) : Int)⟩ =
        .ok (.walkR x, ⟨[], ((x.EncodedLength + HeaderSize : Nat) : Int) -
          ((HeaderSize : Nat) : Int) - (x.EncodedLength : Int)⟩) := by
      rw [show decodeBodySwitch Rwalk =
          dbind WalkResponse.dec (fun y => dpure (.walkR y)) from rfl,
        dbind_ok (WalkResponse_dec_enc x [] _ h1 h2 h3 (by push_cast [HeaderSize]; omega)),
        dpure]
    rw [List.append_nil] at hb
    exact Decode_ok_of hh hb
  | openT x =>
    obtain ⟨h1, h2, h3⟩ := hf
    have hL : x.EncodedLength + HeaderSize < 2 ^ 32 := by
      simpa [HeaderSize, Msg.EncodedLength] using hsz
    have hh : DecodeHdr (Encode (.openT x)) =
        .ok ((x.EncodedLength + HeaderSize, Topen), x.Encode) := by
      rw [Encode]
      simp only [Msg.body, Msg.EncodedLength, MessageToMessageType, List.append_assoc]
      exact DecodeHdr_enc (t := Topen) hL (by norm_num [Topen]) _
    have hb : decodeBodySwitch Topen
        ⟨x.Encode ++ [], ((x.EncodedLength + HeaderSize : Nat) : Int) - ((HeaderSize : Nat) : Int)⟩ =
        .ok (.openT x, ⟨[], ((x.EncodedLength + HeaderSize : Nat) : Int) -
          ((HeaderSize : Nat) : Int) - (x.EncodedLength : Int)⟩) := by
      rw [show decodeBodySwitch Topen =
          dbind OpenRequest.dec (fun y => dpure (.openT y)) from rfl,
        dbind_ok (OpenRequest_dec_enc x [] _ h1 h2 h3 (by push_cast [HeaderSize]; omega)),
        dpure]
    rw [List.append_nil] at hb
    exact Decode_ok_of hh hb
  | openR x =>
    obtain ⟨h1, h2, h3⟩ := hf
    have hL : x.EncodedLength + HeaderSize < 2 ^ 32 := by
      simpa [HeaderSize, Msg.EncodedLength] using hsz
    have hh : DecodeHdr (Encode (.openR x)) =
        .ok ((x.EncodedLength + HeaderSize, Ropen), x.Encode) := by
      rw [Encode]
      simp only [Msg.body, Msg.EncodedLength, MessageToMessageType, List.append_assoc]
      exact DecodeHdr_enc (t := Ropen) hL (by norm_num [Ropen]) _
    have hb : decodeBodySwitch Ropen
        ⟨x.Encode ++ [], ((x.EncodedLength + HeaderSize : Nat) : Int) - ((HeaderSize : Nat) : Int)⟩ =
        .ok (.openR x, ⟨[], ((x.EncodedLength + HeaderSize : Nat) : Int) -
          ((HeaderSize : Nat) : Int) - (x.EncodedLength : Int)⟩) := by
      rw [show decodeBodySwitch Ropen =
          dbind OpenResponse.dec (fun y => dpure (.openR y)) from rfl,
        dbind_ok (OpenResponse_dec_enc x [] _ h1 h2 h3 (by push_cast [HeaderSize]; omega)),
        dpure]
    rw [List.append_nil] at hb
    exact Decode_ok_of hh hb
  | createT x =>
    obtain ⟨h1, h2, h3, h4, h5⟩ := hf
    have hL : x.EncodedLength + HeaderSize < 2 ^ 32 := by
      simpa [HeaderSize, Msg.EncodedLength] using hsz
    have hh : DecodeHdr (Encode (.createT x)) =
        .ok ((x.EncodedLength + HeaderSize, Tcreate), x.Encode) := by
      rw [Encode]
      simp only [Msg.body, Msg.EncodedLength, MessageToMessageType, List.append_assoc]
      exact DecodeHdr_enc (t := Tcreate) hL (by norm_num [Tcreate]) _
    have hb : decodeBodySwitch Tcreate
        ⟨x.Encode ++ [], ((x.EncodedLength + HeaderSize : Nat) : Int) - ((HeaderSize : Nat) : Int)⟩ =
        .ok (.createT x, ⟨[], ((x.EncodedLength + HeaderSize : Nat) : Int) -
          ((HeaderSize : Nat) : Int) - (x.EncodedLength : Int)⟩) := by
      rw [show decodeBodySwitch Tcreate =
          dbind CreateRequest.dec (fun y => dpure (.createT y)) from rfl,
        dbind_ok (CreateRequest_dec_enc x [] _ h1 h2 h3 h4 h5 (by push_cast [HeaderSize]; omega)),
        dpure]
    rw [List.append_nil] at hb
    exact Decode_ok_of hh hb
  | createR x =>
    obtain ⟨h1, h2, h3⟩ := hf
    have hL : x.EncodedLength + HeaderSize < 2 ^ 32 := by
      simpa [HeaderSize, Msg.EncodedLength] using hsz
    have hh : DecodeHdr (Encode (.createR x)) =
        .ok ((x.EncodedLength + HeaderSize, Rcreate), x.Encode) := by
      rw [Encode]
      simp only [Msg.body, Msg.EncodedLength, MessageToMessageType, List.append_assoc]
      exact DecodeHdr_enc (t := Rcreate) hL (by norm_num [Rcreate]) _
    have hb : decodeBodySwitch Rcreate
        ⟨x.Encode ++ [], ((x.EncodedLength + HeaderSize : Nat) : Int) - ((HeaderSize : Nat) : Int)⟩ =
        .ok (.createR x, ⟨[], ((x.EncodedLength + HeaderSize : Nat) : Int) -
          ((HeaderSize : Nat) : Int) - (x.EncodedLength : Int)⟩) := by
      rw [show decodeBodySwitch Rcreate =
          dbind CreateResponse.dec (fun y => dpure (.createR y)) from rfl,
        dbind_ok (CreateResponse_dec_enc x [] _ h1 h2 h3 (by push_cast [HeaderSize]; omega)),
        dpure]
    rw [List.append_nil] at hb
    exact Decode_ok_of hh hb
  | readT x =>
    obtain ⟨h1, h2, h3, h4⟩ := hf
    have hL : x.EncodedLength + HeaderSize < 2 ^ 32 := by
      simpa [HeaderSize, Msg.EncodedLength] using hsz
    have hh : DecodeHdr (Encode (.readT x)) =
        .ok ((x.EncodedLength + HeaderSize, Tread), x.Encode) := by
      rw [Encode]
      simp only [Msg.body, Msg.EncodedLength, MessageToMessageType, List.append_assoc]
      exact DecodeHdr_enc (t := Tread) hL (by norm_num [Tread]) _
    have hb : decodeBodySwitch Tread
        ⟨x.Encode ++ [], ((x.EncodedLength + HeaderSize : Nat) : Int) - ((HeaderSize : Nat) : Int)⟩ =
        .ok (.readT x, ⟨[], ((x.EncodedLength + HeaderSize : Nat) : Int) -
          ((HeaderSize : Nat) : Int) - (x.EncodedLength : Int)⟩) := by
      rw [show decodeBodySwitch Tread =
          dbind ReadRequest.dec (fun y => dpure (.readT y)) from rfl,
        dbind_ok (ReadRequest_dec_enc x [] _ h1 h2 h3 h4 (by push_cast [HeaderSize]; omega)),
        dpure]
    rw [List.append_nil] at hb
    exact Decode_ok_of hh hb
  | readR x =>
    obtain ⟨h1, h2⟩ := hf
    have hL : x.EncodedLength + HeaderSize < 2 ^ 32 := by
      simpa [HeaderSize, Msg.EncodedLength] using hsz
    have hh : DecodeHdr (Encode (.readR x)) =
        .ok ((x.EncodedLength + HeaderSize, Rread), x.Encode) := by
      rw [Encode]
      simp only [Msg.body, Msg.EncodedLength, MessageToMessageType, List.append_assoc]
      exact DecodeHdr_enc (t := Rread) hL (by norm_num [Rread]) _
    have hb : decodeBodySwitch Rread
        ⟨x.Encode ++ [], ((x.EncodedLength + HeaderSize : Nat) : Int) - ((HeaderSize : Nat) : Int)⟩ =
        .ok (.readR x, ⟨[], ((x.EncodedLength + HeaderSize : Nat) : Int) -
          ((HeaderSize : Nat) : Int) - (x.EncodedLength : Int)⟩) := by
      rw [show decodeBodySwitch Rread =
          dbind ReadResponse.dec (fun y => dpure (.readR y)) from rfl,
        dbind_ok (ReadResponse_dec_enc x [] _ h1 h2 (by push_cast [HeaderSize]; omega)),
        dpure]
    rw [List.append_nil] at hb
    exact Decode_ok_of hh hb
  | writeT x =>
    obtain ⟨h1, h2, h3, h4⟩ := hf
    have hL : x.EncodedLength + HeaderSize < 2 ^ 32 := by
      simpa [HeaderSize, Msg.EncodedLength] using hsz
    have hh : DecodeHdr (Encode (.writeT x)) =
        .ok ((x.EncodedLength + HeaderSize, Twrite), x.Encode) := by
      rw [Encode]
      simp only [Msg.body, Msg.EncodedLength, MessageToMessageType, List.append_assoc]
      exact DecodeHdr_enc (t := Twrite) hL (by norm_num [Twrite]) _
    have hb : decodeBodySwitch Twrite
        ⟨x.Encode ++ [], ((x.EncodedLength + HeaderSize : Nat) : Int) - ((HeaderSize : Nat) : Int)⟩ =
        .ok (.writeT x, ⟨[], ((x.EncodedLength + HeaderSize : Nat) : Int) -
          ((HeaderSize : Nat) : Int) - (x.EncodedLength : Int)⟩) := by
      rw [show decodeBodySwitch Twrite =
          dbind WriteRequest.dec (fun y => dpure (.writeT y)) from rfl,
        dbind_ok (WriteRequest_dec_enc x [] _ h1 h2 h3 h4 (by push_cast [HeaderSize]; omega)),
        dpure]
    rw [List.append_nil] at hb
    exact Decode_ok_of hh hb
  | writeR x =>
    obtain ⟨h1, h2⟩ := hf
    have hL : x.EncodedLength + HeaderSize < 2 ^ 32 := by
      simpa [HeaderSize, Msg.EncodedLength] using hsz
    have hh : DecodeHdr (Encode (.writeR x)) =
        .ok ((x.EncodedLength + HeaderSize, Rwrite), x.Encode) := by
      rw [Encode]
      simp only [Msg.body, Msg.EncodedLength, MessageToMessageType, List.append_assoc]
      exact DecodeHdr_enc (t := Rwrite) hL (by norm_num [Rwrite]) _
    have hb : decodeBodySwitch Rwrite
        ⟨x.Encode ++ [], ((x.EncodedLength + HeaderSize : Nat) : Int) - ((HeaderSize : Nat) : Int)⟩ =
        .ok (.writeR x, ⟨[], ((x.EncodedLength + HeaderSize : Nat) : Int) -
          ((HeaderSize : Nat) : Int) - (x.EncodedLength : Int)⟩) := by
      rw [show decodeBodySwitch Rwrite =
          dbind WriteResponse.dec (fun y => dpure (.writeR y)) from rfl,
        dbind_ok (WriteResponse_dec_enc x [] _ h1 h2 (by push_cast [HeaderSize]; omega)),
        dpure]
    rw [List.append_nil] at hb
    exact Decode_ok_of hh hb
  | clunkT x =>
    obtain ⟨h1, h2⟩ := hf
    have hL : x.EncodedLength + HeaderSize < 2 ^ 32 := by
      simpa [HeaderSize, Msg.EncodedLength] using hsz
    have hh : DecodeHdr (Encode (.clunkT x)) =
        .ok ((x.EncodedLength + HeaderSize, Tclunk), x.Encode) := by
      rw [Encode]
      simp only [Msg.body, Msg.EncodedLength, MessageToMessageType, List.append_assoc]
      exact DecodeHdr_enc (t := Tclunk) hL (by norm_num [Tclunk]) _
    have hb : decodeBodySwitch Tclunk
        ⟨x.Encode ++ [], ((x.EncodedLength + HeaderSize : Nat) : Int) - ((HeaderSize : Nat) : Int)⟩ =
        .ok (.clunkT x, ⟨[], ((x.EncodedLength + HeaderSize : Nat) : Int) -
          ((HeaderSize : Nat) : Int) - (x.EncodedLength : Int)⟩) := by
      rw [show decodeBodySwitch Tclunk =
          dbind ClunkRequest.dec (fun y => dpure (.clunkT y)) from rfl,
        dbind_ok (ClunkRequest_dec_enc x [] _ h1 h2 (by push_cast [HeaderSize]; omega)),
        dpure]
    rw [List.append_nil] at hb
    exact Decode_ok_of hh hb
  | clunkR x =>
    have hL : x.EncodedLength + HeaderSize < 2 ^ 32 := by
      simpa [HeaderSize, Msg.EncodedLength] using hsz
    have hh : DecodeHdr (Encode (.clunkR x)) =
        .ok ((x.EncodedLength + HeaderSize, Rclunk), x.Encode) := by
      rw [Encode]
      simp only [Msg.body, Msg.EncodedLength, MessageToMessageType, List.append_assoc]
      exact DecodeHdr_enc (t := Rclunk) hL (by norm_num [Rclunk]) _
    have hb : decodeBodySwitch Rclunk
        ⟨x.Encode ++ [], ((x.EncodedLength + HeaderSize : Nat) : Int) - ((HeaderSize : Nat) : Int)⟩ =
        .ok (.clunkR x, ⟨[], ((x.EncodedLength + HeaderSize : Nat) : Int) -
          ((HeaderSize : Nat) : Int) - (x.EncodedLength : Int)⟩) := by
      rw [show decodeBodySwitch Rclunk =
          dbind ClunkResponse.dec (fun y => dpure (.clunkR y)) from rfl,
        dbind_ok (ClunkResponse_dec_enc x [] _ hf (by push_cast [HeaderSize]; omega)),
        dpure]
    rw [List.append_nil] at hb
    exact Decode_ok_of hh hb
  | removeT x =>
    obtain ⟨h1, h2⟩ := hf
    have hL : x.EncodedLength + HeaderSize < 2 ^ 32 := by
      simpa [HeaderSize, Msg.EncodedLength] using hsz
    have hh : DecodeHdr (Encode (.removeT x)) =
        .ok ((x.EncodedLength + HeaderSize, Tremove), x.Encode) := by
      rw [Encode]
      simp only [Msg.body, Msg.EncodedLength, MessageToMessageType, List.append_assoc]
      exact DecodeHdr_enc (t := Tremove) hL (by norm_num [Tremove]) _
    have hb : decodeBodySwitch Tremove
        ⟨x.Encode ++ [], ((x.EncodedLength + HeaderSize : Nat) : Int) - ((HeaderSize : Nat) : Int)⟩ =
        .ok (.removeT x, ⟨[], ((x.EncodedLength + HeaderSize : Nat) : Int) -
          ((HeaderSize : Nat) : Int) - (x.EncodedLength : Int)⟩) := by
      rw [show decodeBodySwitch Tremove =
          dbind RemoveRequest.dec (fun y => dpure (.removeT y)) from rfl,
        dbind_ok (RemoveRequest_dec_enc x [] _ h1 h2 (by push_cast [HeaderSize]; omega)),
        dpure]
    rw [List.append_nil] at hb
    exact Decode_ok_of hh hb
  | removeR x =>
    have hL : x.EncodedLength + HeaderSize < 2 ^ 32 := by
      simpa [HeaderSize, Msg.EncodedLength] using hsz
    have hh : DecodeHdr (Encode (.removeR x)) =
        .ok ((x.EncodedLength + HeaderSize, Rremove), x.Encode) := by
      rw [Encode]
      simp only [Msg.body, Msg.EncodedLength, MessageToMessageType, List.append_assoc]
      exact DecodeHdr_enc (t := Rremove) hL (by norm_num [Rremove]) _
    have hb : decodeBodySwitch Rremove
        ⟨x.Encode ++ [], ((x.EncodedLength + HeaderSize : Nat) : Int) - ((HeaderSize : Nat) : Int)⟩ =
        .ok (.removeR x, ⟨[], ((x.EncodedLength + HeaderSize : Nat) : Int) -
          ((HeaderSize : Nat) : Int) - (x.EncodedLength : Int)⟩) := by
      rw [show decodeBodySwitch Rremove =
          dbind RemoveResponse.dec (fun y => dpure (.removeR y)) from rfl,
        dbind_ok (RemoveResponse_dec_enc x [] _ hf (by push_cast [HeaderSize]; omega)),
        dpure]
    rw [List.append_nil] at hb
    exact Decode_ok_of hh hb
  | statT x =>
    obtain ⟨h1, h2⟩ := hf
    have hL : x.EncodedLength + HeaderSize < 2 ^ 32 := by
      simpa [HeaderSize, Msg.EncodedLength] using hsz
    have hh : DecodeHdr (Encode (.statT x)) =
        .ok ((x.EncodedLength + HeaderSize, Tstat), x.Encode) := by
      rw [Encode]
      simp only [Msg.body, Msg.EncodedLength, MessageToMessageType, List.append_assoc]
      exact DecodeHdr_enc (t := Tstat) hL (by norm_num [Tstat]) _
    have hb : decodeBodySwitch Tstat
        ⟨x.Encode ++ [], ((x.EncodedLength + HeaderSize : Nat) : Int) - ((HeaderSize : Nat) : Int)⟩ =
        .ok (.statT x, ⟨[], ((x.EncodedLength + HeaderSize : Nat) : Int) -
          ((HeaderSize : Nat) : Int) - (x.EncodedLength : Int)⟩) := by
      rw [show decodeBodySwitch Tstat =
          dbind StatRequest.dec (fun y => dpure (.statT y)) from rfl,
        dbind_ok (StatRequest_dec_enc x [] _ h1 h2 (by push_cast [HeaderSize]; omega)),
        dpure]
    rw [List.append_nil] at hb
    exact Decode_ok_of hh hb
  | statR x =>
    obtain ⟨h1, h2⟩ := hf
    have hL : x.EncodedLength + HeaderSize < 2 ^ 32 := by
      simpa [HeaderSize, Msg.EncodedLength] using hsz
    have hh : DecodeHdr (Encode (.statR x)) =
        .ok ((x.EncodedLength + HeaderSize, Rstat), x.Encode) := by
      rw [Encode]
      simp only [Msg.body, Msg.EncodedLength, MessageToMessageType, List.append_assoc]
      exact DecodeHdr_enc (t := Rstat) hL (by norm_num [Rstat]) _
    have hb : decodeBodySwitch Rstat
        ⟨x.Encode ++ [], ((x.EncodedLength + HeaderSize : Nat) : Int) - ((HeaderSize : Nat) : Int)⟩ =
        .ok (.statR x, ⟨[], ((x.EncodedLength + HeaderSize : Nat) : Int) -
          ((HeaderSize : Nat) : Int) - (x.EncodedLength : Int)⟩) := by
      rw [show decodeBodySwitch Rstat =
          dbind StatResponse.dec (fun y => dpure (.statR y)) from rfl,
        dbind_ok (StatResponse_dec_enc x [] _ h1 h2 (by push_cast [HeaderSize]; omega)),
        dpure]
    rw [List.append_nil] at hb
    exact Decode_ok_of hh hb
  | wstatT x =>
    obtain ⟨h1, h2, h3⟩ := hf
    have hL : x.EncodedLength + HeaderSize < 2 ^ 32 := by
      simpa [HeaderSize, Msg.EncodedLength] using hsz
    have hh : DecodeHdr (Encode (.wstatT x)) =
        .ok ((x.EncodedLength + HeaderSize, Twstat), x.Encode) := by
      rw [Encode]
      simp only [Msg.body, Msg.EncodedLength, MessageToMessageType, List.append_assoc]
      exact DecodeHdr_enc (t := Twstat) hL (by norm_num [Twstat]) _
    have hb : decodeBodySwitch Twstat
        ⟨x.Encode ++ [], ((x.EncodedLength + HeaderSize : Nat) : Int) - ((HeaderSize : Nat) : Int)⟩ =
        .ok (.wstatT x, ⟨[], ((x.EncodedLength + HeaderSize : Nat) : Int) -
          ((HeaderSize : Nat) : Int) - (x.EncodedLength : Int)⟩) := by
      rw [show decodeBodySwitch Twstat =
          dbind WriteStatRequest.dec (fun y => dpure (.wstatT y)) from rfl,
        dbind_ok (WriteStatRequest_dec_enc x [] _ h1 h2 h3 (by push_cast [HeaderSize]; omega)),
        dpure]
    rw [List.append_nil] at hb
    exact Decode_ok_of hh hb
  | wstatR x =>
    have hL : x.EncodedLength + HeaderSize < 2 ^ 32 := by
      simpa [HeaderSize, Msg.EncodedLength] using hsz
    have hh : DecodeHdr (Encode (.wstatR x)) =
        .ok ((x.EncodedLength + HeaderSize, Rwstat), x.Encode) := by
      rw [Encode]
      simp only [Msg.body, Msg.EncodedLength, MessageToMessageType, List.append_assoc]
      exact DecodeHdr_enc (t := Rwstat) hL (by norm_num [Rwstat]) _
    have hb : decodeBodySwitch Rwstat
        ⟨x.Encode ++ [], ((x.EncodedLength + HeaderSize : Nat) : Int) - ((HeaderSize : Nat) : Int)⟩ =
        .ok (.wstatR x, ⟨[], ((x.EncodedLength + HeaderSize : Nat) : Int) -
          ((HeaderSize : Nat) : Int) - (x.EncodedLength : Int)⟩) := by
      rw [show decodeBodySwitch Rwstat =
          dbind WriteStatResponse.dec (fun y => dpure (.wstatR y)) from rfl,
        dbind_ok (WriteStatResponse_dec_enc x [] _ hf (by push_cast [HeaderSize]; omega)),
        dpure]
    rw [List.append_nil] at hb
    exact Decode_ok_of hh hb

/- ### Consumption bounds: a decoder can never overrun its reader budget -/

/-- Relation between the reader state before and after a successful
decoding step: the stream only shrinks, consumption is charged against the
budget one-for-one, and the final budget is non-negative unless nothing at
all was read. -/
def DStep (s s1 : LR) : Prop :=
  s1.rem.length ≤ s.rem.length ∧ s1.n ≤ s.n ∧
    ((s.rem.length : Int) - (s1.rem.length : Int) = s.n - s1.n) ∧
    (0 ≤ s1.n ∨ s1.n = s.n)

theorem DStep.refl (s : LR) : DStep s s := by
  refine ⟨le_rfl, le_rfl, by ring, Or.inr rfl⟩

theorem DStep.trans {s s1 s2 : LR} (h1 : DStep s s1) (h2 : DStep s1 s2) :
    DStep s s2 := by
  obtain ⟨a1, b1, c1, d1⟩ := h1
  obtain ⟨a2, b2, c2, d2⟩ := h2
  refine ⟨le_trans a2 a1, le_trans b2 b1, by omega, by omega⟩

def Mono {α : Type} (f : DecM α) : Prop :=
  ∀ s a s1, f s = .ok (a, s1) → DStep s s1

theorem mono_dpure {α : Type} (a : α) : Mono (dpure a) := by
  intro s b s1 h
  simp only [dpure, Except.ok.injEq, Prod.mk.injEq] at h
  rw [← h.2]
  exact DStep.refl s

theorem mono_derror {α : Type} (e : DErr) : Mono (derror (α := α) e) := by
  intro s b s1 h
  simp [derror] at h

theorem mono_dbind {α β : Type} {x : DecM α} {f : α → DecM β} (hx : Mono x)
    (hf : ∀ a, Mono (f a)) : Mono (dbind x f) := by
  intro s b s2 h
  rcases hx0 : x s with e | ⟨a, s1⟩
  · simp only [dbind, hx0] at h
    exact Except.noConfusion h
  · simp only [dbind, hx0] at h
    exact DStep.trans (hx s a s1 hx0) (hf a s1 b s2 h)

theorem mono_readB (k : Nat) : Mono (readB k) := by
  intro s a s1 h
  unfold readB at h
  split at h
  · simp only [Except.ok.injEq, Prod.mk.injEq] at h
    rw [← h.2]
    exact DStep.refl s
  · split at h
    · rename_i hk hc
      obtain ⟨hc1, hc2⟩ := hc
      simp only [Except.ok.injEq, Prod.mk.injEq] at h
      rw [← h.2]
      refine ⟨?_, ?_, ?_, Or.inl ?_⟩
      · dsimp only
        rw [List.length_drop]
        omega
      · dsimp only
        omega
      · dsimp only
        rw [List.length_drop]
        omega
      · dsimp only
        omega
    · simp at h

theorem mono_ReadByte : Mono ReadByte :=
  mono_dbind (mono_readB 1) fun b => mono_dpure (fromLE b)

theorem mono_ReadUint16 : Mono ReadUint16 :=
  mono_dbind (mono_readB 2) fun b => mono_dpure (fromLE b)

theorem mono_ReadUint32 : Mono ReadUint32 :=
  mono_dbind (mono_readB 4) fun b => mono_dpure (fromLE b)

theorem mono_ReadUint64 : Mono ReadUint64 :=
  mono_dbind (mono_readB 8) fun b => mono_dpure (fromLE b)

theorem mono_ReadString : Mono ReadString :=
  mono_dbind mono_ReadUint16 fun l => mono_readB l

theorem mono_dlist {α : Type} (m : DecM α) (hm : Mono m) :
    ∀ k, Mono (dlist k m) := by
  intro k
  induction k with
  | zero => exact mono_dpure []
  | succ k ih =>
    exact mono_dbind hm fun a => mono_dbind ih fun as => mono_dpure (a :: as)

theorem mono_Qid_dec : Mono Qid.dec :=
  mono_dbind mono_ReadByte fun _ =>
    mono_dbind mono_ReadUint32 fun _ =>
      mono_dbind mono_ReadUint64 fun _ => mono_dpure _

theorem mono_Stat_dec : Mono Stat.dec :=
  mono_dbind mono_ReadUint16 fun _ =>
  mono_dbind mono_ReadUint16 fun _ =>
  mono_dbind mono_ReadUint32 fun _ =>
  mono_dbind mono_Qid_dec fun _ =>
  mono_dbind mono_ReadUint32 fun _ =>
  mono_dbind mono_ReadUint32 fun _ =>
  mono_dbind mono_ReadUint32 fun _ =>
  mono_dbind mono_ReadUint64 fun _ =>
  mono_dbind mono_ReadString fun _ =>
  mono_dbind mono_ReadString fun _ =>
  mono_dbind mono_ReadString fun _ =>
  mono_dbind mono_ReadString fun _ => mono_dpure _

theorem mono_VersionRequest_dec : Mono VersionRequest.dec :=
  mono_dbind mono_ReadUint16 fun _ =>
  mono_dbind mono_ReadUint32 fun _ =>
  mono_dbind mono_ReadString fun _ => mono_dpure _

theorem mono_VersionResponse_dec : Mono VersionResponse.dec :=
  mono_dbind mono_ReadUint16 fun _ =>
  mono_dbind mono_ReadUint32 fun _ =>
  mono_dbind mono_ReadString fun _ => mono_dpure _

theorem mono_AuthRequest_dec : Mono AuthRequest.dec :=
  mono_dbind mono_ReadUint16 fun _ =>
  mono_dbind mono_ReadUint32 fun _ =>
  mono_dbind mono_ReadString fun _ =>
  mono_dbind mono_ReadString fun _ => mono_dpure _

theorem mono_AuthResponse_dec : Mono AuthResponse.dec :=
  mono_dbind mono_ReadUint16 fun _ =>
  mono_dbind mono_Qid_dec fun _ => mono_dpure _

theorem mono_AttachRequest_dec : Mono AttachRequest.dec :=
  mono_dbind mono_ReadUint16 fun _ =>
  mono_dbind mono_ReadUint32 fun _ =>
  mono_dbind mono_ReadUint32 fun _ =>
  mono_dbind mono_ReadString fun _ =>
  mono_dbind mono_ReadString fun _ => mono_dpure _

theorem mono_AttachResponse_dec : Mono AttachResponse.dec :=
  mono_dbind mono_ReadUint16 fun _ =>
  mono_dbind mono_Qid_dec fun _ => mono_dpure _

theorem mono_ErrorResponse_dec : Mono ErrorResponse.dec :=
  mono_dbind mono_ReadUint16 fun _ =>
  mono_dbind mono_ReadString fun _ => mono_dpure _

theorem mono_FlushRequest_dec : Mono FlushRequest.dec :=
  mono_dbind mono_ReadUint16 fun _ =>
  mono_dbind mono_ReadUint16 fun _ => mono_dpure _

theorem mono_FlushResponse_dec : Mono FlushResponse.dec :=
  mono_dbind mono_ReadUint16 fun _ => mono_dpure _

theorem mono_WalkRequest_dec : Mono WalkRequest.dec :=
  mono_dbind mono_ReadUint16 fun _ =>
  mono_dbind mono_ReadUint32 fun _ =>
  mono_dbind mono_ReadUint32 fun _ =>
  mono_dbind mono_ReadUint16 fun arr =>
  mono_dbind (mono_dlist _ mono_ReadString arr) fun _ => mono_dpure _

theorem mono_WalkResponse_dec : Mono WalkResponse.dec :=
  mono_dbind mono_ReadUint16 fun _ =>
  mono_dbind mono_ReadUint16 fun arr =>
  mono_dbind (mono_dlist _ mono_Qid_dec arr) fun _ => mono_dpure _

theorem mono_OpenRequest_dec : Mono OpenRequest.dec :=
  mono_dbind mono_ReadUint16 fun _ =>
  mono_dbind mono_ReadUint32 fun _ =>
  mono_dbind mono_ReadByte fun _ => mono_dpure _

theorem mono_OpenResponse_dec : Mono OpenResponse.dec :=
  mono_dbind mono_ReadUint16 fun _ =>
  mono_dbind mono_Qid_dec fun _ =>
  mono_dbind mono_ReadUint32 fun _ => mono_dpure _

theorem mono_CreateRequest_dec : Mono CreateRequest.dec :=
  mono_dbind mono_ReadUint16 fun _ =>
  mono_dbind mono_ReadUint32 fun _ =>
  mono_dbind mono_ReadString fun _ =>
  mono_dbind mono_ReadUint32 fun _ =>
  mono_dbind mono_ReadByte fun _ => mono_dpure _

theorem mono_CreateResponse_dec : Mono CreateResponse.dec :=
  mono_dbind mono_ReadUint16 fun _ =>
  mono_dbind mono_Qid_dec fun _ =>
  mono_dbind mono_ReadUint32 fun _ => mono_dpure _

theorem mono_ReadRequest_dec : Mono ReadRequest.dec :=
  mono_dbind mono_ReadUint16 fun _ =>
  mono_dbind mono_ReadUint32 fun _ =>
  mono_dbind mono_ReadUint64 fun _ =>
  mono_dbind mono_ReadUint32 fun _ => mono_dpure _

theorem mono_ReadResponse_dec : Mono ReadResponse.dec :=
  mono_dbind mono_ReadUint16 fun _ =>
  mono_dbind mono_ReadUint32 fun l =>
  mono_dbind (mono_readB l) fun _ => mono_dpure _

theorem mono_WriteRequest_dec : Mono WriteRequest.dec :=
  mono_dbind mono_ReadUint16 fun _ =>
  mono_dbind mono_ReadUint32 fun _ =>
  mono_dbind mono_ReadUint64 fun _ =>
  mono_dbind mono_ReadUint32 fun c =>
  mono_dbind (mono_readB c) fun _ => mono_dpure _

theorem mono_WriteResponse_dec : Mono WriteResponse.dec :=
  mono_dbind mono_ReadUint16 fun _ =>
  mono_dbind mono_ReadUint32 fun _ => mono_dpure _

theorem mono_ClunkRequest_dec : Mono ClunkRequest.dec :=
  mono_dbind mono_ReadUint16 fun _ =>
  mono_dbind mono_ReadUint32 fun _ => mono_dpure _

theorem mono_ClunkResponse_dec : Mono ClunkResponse.dec :=
  mono_dbind mono_ReadUint16 fun _ => mono_dpure _

theorem mono_RemoveRequest_dec : Mono RemoveRequest.dec :=
  mono_dbind mono_ReadUint16 fun _ =>
  mono_dbind mono_ReadUint32 fun _ => mono_dpure _

theorem mono_RemoveResponse_dec : Mono RemoveResponse.dec :=
  mono_dbind mono_ReadUint16 fun _ => mono_dpure _

theorem mono_StatRequest_dec : Mono StatRequest.dec :=
  mono_dbind mono_ReadUint16 fun _ =>
  mono_dbind mono_ReadUint32 fun _ => mono_dpure _

theorem mono_StatResponse_dec : Mono StatResponse.dec :=
  mono_dbind mono_ReadUint16 fun _ =>
  mono_dbind mono_ReadUint16 fun _ =>
  mono_dbind mono_Stat_dec fun _ => mono_dpure _

theorem mono_WriteStatRequest_dec : Mono WriteStatRequest.dec :=
  mono_dbind mono_ReadUint16 fun _ =>
  mono_dbind mono_ReadUint32 fun _ =>
  mono_dbind mono_ReadUint16 fun _ =>
  mono_dbind mono_Stat_dec fun _ => mono_dpure _

theorem mono_WriteStatResponse_dec : Mono WriteStatResponse.dec :=
  mono_dbind mono_ReadUint16 fun _ => mono_dpure _

theorem mono_dmap {α β : Type} {x : DecM α} {g : α → β} (hx : Mono x) :
    Mono (dbind x fun y => dpure (g y)) :=
  mono_dbind hx fun a => mono_dpure (g a)

theorem mono_decodeBodySwitch (mt : Nat) : Mono (decodeBodySwitch mt) := by
  rw [decodeBodySwitch]
  by_cases h1 : mt = Tversion
  · rw [if_pos h1]
    exact mono_dmap mono_VersionRequest_dec
  rw [if_neg h1]
  by_cases h2 : mt = Rversion
  · rw [if_pos h2]
    exact mono_dmap mono_VersionResponse_dec
  rw [if_neg h2]
  by_cases h3 : mt = Tauth
  · rw [if_pos h3]
    exact mono_dmap mono_AuthRequest_dec
  rw [if_neg h3]
  by_cases h4 : mt = Rauth
  · rw [if_pos h4]
    exact mono_dmap mono_AuthResponse_dec
  rw [if_neg h4]
  by_cases h5 : mt = Tattach
  · rw [if_pos h5]
    exact mono_dmap mono_AttachRequest_dec
  rw [if_neg h5]
  by_cases h6 : mt = Rattach
  · rw [if_pos h6]
    exact mono_dmap mono_AttachResponse_dec
  rw [if_neg h6]
  by_cases h7 : mt = Rerror
  · rw [if_pos h7]
    exact mono_dmap mono_ErrorResponse_dec
  rw [if_neg h7]
  by_cases h8 : mt = Tflush
  · rw [if_pos h8]
    exact mono_dmap mono_FlushRequest_dec
  rw [if_neg h8]
  by_cases h9 : mt = Rflush
  · rw [if_pos h9]
    exact mono_dmap mono_FlushResponse_dec
  rw [if_neg h9]
  by_cases h10 : mt = Twalk
  · rw [if_pos h10]
    exact mono_dmap mono_WalkRequest_dec
  rw [if_neg h10]
  by_cases h11 : mt = Rwalk
  · rw [if_pos h11]
    exact mono_dmap mono_WalkResponse_dec
  rw [if_neg h11]
  by_cases h12 : mt = Topen
  · rw [if_pos h12]
    exact mono_dmap mono_OpenRequest_dec
  rw [if_neg h12]
  by_cases h13 : mt = Ropen
  · rw [if_pos h13]
    exact mono_dmap mono_OpenResponse_dec
  rw [if_neg h13]
  by_cases h14 : mt = Tcreate
  · rw [if_pos h14]
    exact mono_dmap mono_CreateRequest_dec
  rw [if_neg h14]
  by_cases h15 : mt = Rcreate
  · rw [if_pos h15]
    exact mono_dmap mono_CreateResponse_dec
  rw [if_neg h15]
  by_cases h16 : mt = Tread
  · rw [if_pos h16]
    exact mono_dmap mono_ReadRequest_dec
  rw [if_neg h16]
  by_cases h17 : mt = Rread
  · rw [if_pos h17]
    exact mono_dmap mono_ReadResponse_dec
  rw [if_neg h17]
  by_cases h18 : mt = Twrite
  · rw [if_pos h18]
    exact mono_dmap mono_WriteRequest_dec
  rw [if_neg h18]
  by_cases h19 : mt = Rwrite
  · rw [if_pos h19]
    exact mono_dmap mono_WriteResponse_dec
  rw [if_neg h19]
  by_cases h20 : mt = Tclunk
  · rw [if_pos h20]
    exact mono_dmap mono_ClunkRequest_dec
  rw [if_neg h20]
  by_cases h21 : mt = Rclunk
  · rw [if_pos h21]
    exact mono_dmap mono_ClunkResponse_dec
  rw [if_neg h21]
  by_cases h22 : mt = Tremove
  · rw [if_pos h22]
    exact mono_dmap mono_RemoveRequest_dec
  rw [if_neg h22]
  by_cases h23 : mt = Rremove
  · rw [if_pos h23]
    exact mono_dmap mono_RemoveResponse_dec
  rw [if_neg h23]
  by_cases h24 : mt = Tstat
  · rw [if_pos h24]
    exact mono_dmap mono_StatRequest_dec
  rw [if_neg h24]
  by_cases h25 : mt = Rstat
  · rw [if_pos h25]
    exact mono_dmap mono_StatResponse_dec
  rw [if_neg h25]
  by_cases h26 : mt = Twstat
  · rw [if_pos h26]
    exact mono_dmap mono_WriteStatRequest_dec
  rw [if_neg h26]
  by_cases h27 : mt = Rwstat
  · rw [if_pos h27]
    exact mono_dmap mono_WriteStatResponse_dec
  rw [if_neg h27]
  exact mono_derror _


/-- `decodeMsgC`: the client `Start` loop's body decode —
`MessageTypeToMessage(mt)` then the allocated message's `Decode` method. -/
def decodeMsgC (mt : Nat) : DecM Msg := fun s =>
  match MessageTypeToMessage mt with
  | .error e => .error e
  | .ok r => Msg.decLike r s

theorem mono_decLike (t : Msg) : Mono t.decLike := by
  cases t <;>
    first
      | exact mono_dmap mono_VersionRequest_dec
      | exact mono_dmap mono_VersionResponse_dec
      | exact mono_dmap mono_AuthRequest_dec
      | exact mono_dmap mono_AuthResponse_dec
      | exact mono_dmap mono_AttachRequest_dec
      | exact mono_dmap mono_AttachResponse_dec
      | exact mono_dmap mono_ErrorResponse_dec
      | exact mono_dmap mono_FlushRequest_dec
      | exact mono_dmap mono_FlushResponse_dec
      | exact mono_dmap mono_WalkRequest_dec
      | exact mono_dmap mono_WalkResponse_dec
      | exact mono_dmap mono_OpenRequest_dec
      | exact mono_dmap mono_OpenResponse_dec
      | exact mono_dmap mono_CreateRequest_dec
      | exact mono_dmap mono_CreateResponse_dec
      | exact mono_dmap mono_ReadRequest_dec
      | exact mono_dmap mono_ReadResponse_dec
      | exact mono_dmap mono_WriteRequest_dec
      | exact mono_dmap mono_WriteResponse_dec
      | exact mono_dmap mono_ClunkRequest_dec
      | exact mono_dmap mono_ClunkResponse_dec
      | exact mono_dmap mono_RemoveRequest_dec
      | exact mono_dmap mono_RemoveResponse_dec
      | exact mono_dmap mono_StatRequest_dec
      | exact mono_dmap mono_StatResponse_dec
      | exact mono_dmap mono_WriteStatRequest_dec
      | exact mono_dmap mono_WriteStatResponse_dec

theorem mono_decodeMsgC (mt : Nat) : Mono (decodeMsgC mt) := by
  intro s a s1 h
  unfold decodeMsgC at h
  split at h
  · cases h
  · exact mono_decLike _ s a s1 h

/- ### Header shape and the consumption bound of `Decode` -/

theorem DecodeHdr_ok {b : List Nat} {size mt : Nat} {rest : List Nat}
    (h : DecodeHdr b = .ok ((size, mt), rest)) :
    size = fromLE (b.take 4) ∧ rest.length + 5 = b.length := by
  unfold DecodeHdr at h
  split at h
  · split at h
    · rename_i h4 h1
      simp only [Except.ok.injEq, Prod.mk.injEq] at h
      obtain ⟨⟨hsize, _⟩, hrest⟩ := h
      refine ⟨hsize.symm, ?_⟩
      rw [← hrest]
      simp only [List.drop_drop, List.length_drop]
      simp only [List.length_drop] at h1
      omega
    · cases h
  · cases h

/-- Whenever `Decode` succeeds, it consumed at most the advertised frame
size (or the 5 header bytes, for nonsensical sizes below 5): the
`io.LimitedReader` makes over-reading the declared body impossible. -/
theorem Decode_consumed {b : List Nat} {m : Msg} {rest : List Nat}
    (h : Decode b = .ok (m, rest)) :
    b.length - rest.length ≤ max (fromLE (b.take 4)) 5 := by
  unfold Decode at h
  split at h
  · cases h
  · rename_i size mt rest1 hh
    split at h
    · cases h
    · rename_i m1 s hb
      simp only [Except.ok.injEq, Prod.mk.injEq] at h
      obtain ⟨rfl, rfl⟩ := h
      obtain ⟨hsize, hlen⟩ := DecodeHdr_ok hh
      obtain ⟨l1, l2, l3, l4⟩ := mono_decodeBodySwitch mt _ _ _ hb
      simp only [HeaderSize] at l2 l3 l4
      subst hsize
      omega

/- ### The client engine (`client.go`)

The pending-tag table `c.queue : map[protocol.Tag]chan protocol.Message`
is modelled by the list of pending tags (map keys); what each one-shot
channel eventually carries is reported separately as a delivery
`(tag, payload)`, where payload `none` is the Go `nil` ("flushed") marker
and `some m` a delivered response message.  Interleaving with the other
goroutines is captured by the `delivery` oracle parameter of `send`: the
value the environment (reader loop or flush path) will eventually place
in the caller's channel, or `none` if nothing is ever delivered. -/

/-- The pending-tag table: the set of tags with a live completion slot. -/
abbrev Queue := List Nat

/-- Client-side errors (`ErrTagInUse`, `ErrNoSuchTag`, `ErrInvalidResponse`,
`ErrFlushed`, and the carrier of a server `Rerror` string). -/
inductive CErr where
  | tagInUse
  | noSuchTag
  | invalidResponse
  | flushed
  | remote (e : List Nat)
deriving DecidableEq

/-- `delete(c.queue, t)` (a Go map never holds a key twice). -/
def qremove (q : Queue) (t : Nat) : Queue := q.filter (fun x => x != t)

/-- `Client.getTag`: reserve a slot for `t`, failing with `ErrTagInUse` if
one is pending, and leaving the table untouched in that case. -/
def getTag (q : Queue) (t : Nat) : Queue × Option CErr :=
  if t ∈ q then (q, some .tagInUse) else (t :: q, none)

/-- `Client.handleResponse`: deliver `d` to the slot of its tag and remove
the slot; report `ErrNoSuchTag` (and deliver nothing) when no slot
exists. -/
def handleResponse (q : Queue) (d : Msg) :
    Queue × Option (Nat × Option Msg) × Option CErr :=
  if d.GetTag ∈ q then (qremove q d.GetTag, some (d.GetTag, some d), none)
  else (q, none, some .noSuchTag)

/-- `Client.flush` (lowercase): wake the slot of `t` with the Go `nil`
marker and remove it; a no-op when `t` has no slot. -/
def flush (q : Queue) (t : Nat) : Queue × Option (Nat × Option Msg) :=
  if t ∈ q then (qremove q t, some (t, none)) else (q, none)

/-- `Client.write`: encode-and-send under the write lock; on a transport
failure, remove the pending slot of `t` and return the error. `writeOk`
stands for whether `protocol.Encode(c.rw, d)` succeeds. -/
def write (q : Queue) (t : Nat) (writeOk : Bool) : Queue × Bool :=
  if writeOk then (q, true)
  else ((if t ∈ q then qremove q t else q), false)

/-- What `Client.send` does after `resp := <-ch`: Go `nil` means
`ErrFlushed`, an `ErrorResponse` becomes a remote error, anything else is
returned to the caller. -/
def awaitOutcome : Option Msg → Except CErr Msg
  | none => .error .flushed
  | some (.errorR er) => .error (.remote er.Error)
  | some m => .ok m

/-- The result of a `Client.send` call.  `blockedForever` is the fate of a
caller whose channel no goroutine can reach any more: the receive never
completes. -/
inductive SendResult where
  | err (e : CErr)
  | blockedForever
  | ok (m : Msg)
deriving DecidableEq

/-- `Client.send`, faithfully: reserve the tag, call `c.write` and
*discard its result* (the source ignores the returned transport error),
then block on the channel.  If the write failed, `write` already removed
the slot, so neither `handleResponse` nor `flush` can ever reach the
channel and the receive blocks forever; otherwise the caller gets
whatever the environment delivers (`delivery`), the deliverer having
removed the slot. -/
def send (q : Queue) (d : Msg) (writeOk : Bool)
    (delivery : Option (Option Msg)) : Queue × SendResult :=
  match getTag q d.GetTag with
  | (q0, some e) => (q0, .err e)
  | (q1, none) =>
    let (q2, _ok) := write q1 d.GetTag writeOk
    if d.GetTag ∈ q2 then
      match delivery with
      | none => (q2, .blockedForever)
      | some resp =>
        match awaitOutcome resp with
        | .error e => (qremove q2 d.GetTag, .err e)
        | .ok m => (qremove q2 d.GetTag, .ok m)
    else (q2, .blockedForever)

/-- Outcome of one of the typed `Client` calls (`Client.Flush`,
`Client.Remove`, …). -/
inductive CallOutcome (α : Type) where
  | neverReturns
  | err (e : CErr)
  | ok (a : α)
deriving DecidableEq

/-- `Client.Flush`: send the `Tflush` like any request; when the typed
`Rflush` comes back, wake and remove the `OldTag` slot via `c.flush`.
Also returns the delivery that `c.flush` made (if any). -/
def ClientFlush (q : Queue) (r : FlushRequest) (writeOk : Bool)
    (delivery : Option (Option Msg)) :
    Queue × Option (Nat × Option Msg) × CallOutcome FlushResponse :=
  match send q (.flushT r) writeOk delivery with
  | (q1, .err e) => (q1, none, .err e)
  | (q1, .blockedForever) => (q1, none, .neverReturns)
  | (q1, .ok m) =>
    match m with
    | .flushR fr =>
      match flush q1 r.OldTag with
      | (q2, d) => (q2, d, .ok fr)
    | _ => (q1, none, .err .invalidResponse)

/-- `Client.Remove`: send the `Tremove` and type-assert the reply to
`*RemoveResponse`, failing with `ErrInvalidResponse` otherwise. -/
def ClientRemove (q : Queue) (r : RemoveRequest) (writeOk : Bool)
    (delivery : Option (Option Msg)) : Queue × CallOutcome RemoveResponse :=
  match send q (.removeT r) writeOk delivery with
  | (q1, .err e) => (q1, .err e)
  | (q1, .blockedForever) => (q1, .neverReturns)
  | (q1, .ok m) =>
    match m with
    | .removeR rr => (q1, .ok rr)
    | _ => (q1, .err .invalidResponse)

theorem DecodeHdr_length {b : List Nat} {size mt : Nat} {rest : List Nat}
    (h : DecodeHdr b = .ok ((size, mt), rest)) : rest.length + 5 = b.length :=
  (DecodeHdr_ok h).2

/-- `Client.Start`: the reader loop.  Parses one frame at a time
(`DecodeHdr`, `MessageTypeToMessage`, `Decode` on the bounded body
reader), hands each decoded message to `handleResponse` (ignoring its
error), and returns the first transport/parse error.  Returns the error,
the final pending table and the list of deliveries made. -/
def clientStart (input : List Nat) (q : Queue) :
    DErr × Queue × List (Nat × Option Msg) :=
  match hh : DecodeHdr input with
  | .error e => (e, q, [])
  | .ok ((size, mt), rest) =>
    match hb : decodeMsgC mt ⟨rest, (size : Int) - ((HeaderSize : Nat) : Int)⟩ with
    | .error e => (e, q, [])
    | .ok (m, s2) =>
      match handleResponse q m with
      | (q1, d, _e) =>
        match clientStart s2.rem q1 with
        | (e, q2, ds) =>
          match d with
          | some d0 => (e, q2, d0 :: ds)
          | none => (e, q2, ds)
termination_by input.length
decreasing_by
  have l1 := DecodeHdr_length hh
  have l2 := (mono_decodeMsgC mt _ _ _ hb).1
  dsimp only at l2
  omega

/- ### Invariants of the reader loop -/

@[simp] theorem mem_qremove {q : Queue} {t x : Nat} :
    x ∈ qremove q t ↔ x ∈ q ∧ x ≠ t := by
  simp [qremove, List.mem_filter]

theorem qremove_subset (q : Queue) (t : Nat) : qremove q t ⊆ q :=
  fun x hx => (mem_qremove.mp hx).1

theorem handleResponse_queue_subset (q : Queue) (m : Msg) :
    (handleResponse q m).1 ⊆ q := by
  unfold handleResponse
  split
  · dsimp only
    exact qremove_subset q m.GetTag
  · dsimp only
    exact fun x hx => hx

theorem handleResponse_some {q : Queue} {m : Msg} {q1 : Queue}
    {d0 : Nat × Option Msg} {e : Option CErr}
    (h : handleResponse q m = (q1, some d0, e)) :
    d0 = (m.GetTag, some m) ∧ q1 = qremove q m.GetTag := by
  unfold handleResponse at h
  split at h
  · simp only [Prod.mk.injEq, Option.some.injEq] at h
    exact ⟨h.2.1.symm, h.1.symm⟩
  · simp at h

theorem dmap_shape {α β : Type} {x : DecM α} {g : α → β} {s : LR} {b : β}
    {s1 : LR} (h : dbind x (fun y => dpure (g y)) s = .ok (b, s1)) :
    ∃ a, b = g a := by
  rcases hx : x s with e | ⟨a, s2⟩
  · simp only [dbind, hx] at h
    exact Except.noConfusion h
  · simp only [dbind, hx, dpure, Except.ok.injEq, Prod.mk.injEq] at h
    exact ⟨a, h.1.symm⟩

/-- One-step unfolding of the reader loop. -/
theorem clientStart_unfold (input : List Nat) (q : Queue) :
    clientStart input q =
      match DecodeHdr input with
      | .error e => (e, q, [])
      | .ok ((size, mt), rest) =>
        match decodeMsgC mt ⟨rest, (size : Int) - ((HeaderSize : Nat) : Int)⟩ with
        | .error e => (e, q, [])
        | .ok (m, s2) =>
          match handleResponse q m with
          | (q1, d, _e) =>
            match clientStart s2.rem q1 with
            | (e, q2, ds) =>
              match d with
              | some d0 => (e, q2, d0 :: ds)
              | none => (e, q2, ds) := by
  rw [clientStart]
  rcases hdh : DecodeHdr input with e | ⟨⟨size, mt⟩, rest⟩
  · rfl
  · dsimp only
    rcases hb : decodeMsgC mt ⟨rest, (size : Int) - ((HeaderSize : Nat) : Int)⟩ with
      e | ⟨m, s2⟩ <;> rfl

/-- `Start` stops at once when the header read fails. -/
theorem clientStart_hdr_err {input : List Nat} {q : Queue} {e : DErr}
    (hh : DecodeHdr input = .error e) : clientStart input q = (e, q, []) := by
  rw [clientStart_unfold, hh]

/-- `Start` stops at once when the body decode (or the type lookup)
fails. -/
theorem clientStart_body_err {input : List Nat} {q : Queue} {size mt : Nat}
    {rest : List Nat} {e : DErr}
    (hh : DecodeHdr input = .ok ((size, mt), rest))
    (hb : decodeMsgC mt ⟨rest, (size : Int) - ((HeaderSize : Nat) : Int)⟩ =
      .error e) : clientStart input q = (e, q, []) := by
  rw [clientStart_unfold, hh]
  dsimp only
  rw [hb]

theorem clientStart_step {input : List Nat} {q : Queue} {size mt : Nat}
    {rest : List Nat} {m : Msg} {s2 : LR}
    (hh : DecodeHdr input = .ok ((size, mt), rest))
    (hb : decodeMsgC mt ⟨rest, (size : Int) - ((HeaderSize : Nat) : Int)⟩ =
      .ok (m, s2)) :
    clientStart input q =
      match (handleResponse q m).2.1 with
      | some d0 => ((clientStart s2.rem (handleResponse q m).1).1,
          (clientStart s2.rem (handleResponse q m).1).2.1,
          d0 :: (clientStart s2.rem (handleResponse q m).1).2.2)
      | none => ((clientStart s2.rem (handleResponse q m).1).1,
          (clientStart s2.rem (handleResponse q m).1).2.1,
          (clientStart s2.rem (handleResponse q m).1).2.2) := by
  rw [clientStart_unfold, hh]
  dsimp only
  rw [hb]

/-- `clientStart` never grows the pending table. -/
theorem clientStart_queue_subset (input : List Nat) (q : Queue) :
    (clientStart input q).2.1 ⊆ q := by
  induction input, q using clientStart.induct with
  | case1 input q e hh => rw [clientStart_hdr_err hh]; exact fun x hx => hx
  | case2 input q size mt rest hh e hb =>
    rw [clientStart_body_err hh hb]
    exact fun x hx => hx
  | case3 input q size mt rest hh m s2 hb q1 _e e q2 ds hrec d0 hd ih =>
    rw [clientStart_step hh hb, hd]
    dsimp only
    rw [hrec]
    dsimp only
    rw [hrec] at ih
    exact fun x hx => handleResponse_queue_subset q m (by rw [hd]; exact ih hx)
  | case4 input q size mt rest hh m s2 hb q1 _e e q2 ds hrec hd ih =>
    rw [clientStart_step hh hb, hd]
    dsimp only
    rw [hrec]
    dsimp only
    rw [hrec] at ih
    exact fun x hx => handleResponse_queue_subset q m (by rw [hd]; exact ih hx)

/-- Every delivery the reader loop makes carries an actual decoded message
(never the `nil`/"flushed" marker, and no error value — its channels carry
only `protocol.Message`s), and the delivered tag is no longer pending when
`Start` returns. -/
theorem clientStart_deliveries (input : List Nat) (q : Queue) :
    ∀ p ∈ (clientStart input q).2.2,
      p.2.isSome ∧ p.1 ∉ (clientStart input q).2.1 := by
  induction input, q using clientStart.induct with
  | case1 input q e hh =>
    rw [clientStart_hdr_err hh]
    intro p hp
    simp at hp
  | case2 input q size mt rest hh e hb =>
    rw [clientStart_body_err hh hb]
    intro p hp
    simp at hp
  | case3 input q size mt rest hh m s2 hb q1 _e e q2 ds hrec d0 hd ih =>
    obtain ⟨hd0, hq1⟩ := handleResponse_some hd
    rw [clientStart_step hh hb, hd]
    dsimp only
    rw [hrec]
    dsimp only
    rw [hrec] at ih
    intro p hp
    rcases List.mem_cons.mp hp with rfl | hp2
    · subst hd0
      refine ⟨by simp, ?_⟩
      intro hmem
      have h1 : m.GetTag ∈ q1 := clientStart_queue_subset s2.rem q1
        (by rw [hrec]; exact hmem)
      rw [hq1] at h1
      exact (mem_qremove.mp h1).2 rfl
    · exact ih p hp2
  | case4 input q size mt rest hh m s2 hb q1 _e e q2 ds hrec hd ih =>
    rw [clientStart_step hh hb, hd]
    dsimp only
    rw [hrec]
    dsimp only
    rw [hrec] at ih
    exact fun p hp => ih p hp

/-- `MessageTypeToMessage` never allocates a `RemoveResponse`: the
`Rremove` branch returns a `RemoveRequest`. -/
theorem MessageTypeToMessage_not_removeR {mt : Nat} {r : Msg}
    (h : MessageTypeToMessage mt = .ok r) : ∀ x, r ≠ .removeR x := by
  rw [MessageTypeToMessage] at h
  by_cases h1 : mt = Tversion
  · rw [if_pos h1] at h
    simp only [Except.ok.injEq] at h
    subst h
    intro x
    simp
  rw [if_neg h1] at h
  by_cases h2 : mt = Rversion
  · rw [if_pos h2] at h
    simp only [Except.ok.injEq] at h
    subst h
    intro x
    simp
  rw [if_neg h2] at h
  by_cases h3 : mt = Tauth
  · rw [if_pos h3] at h
    simp only [Except.ok.injEq] at h
    subst h
    intro x
    simp
  rw [if_neg h3] at h
  by_cases h4 : mt = Rauth
  · rw [if_pos h4] at h
    simp only [Except.ok.injEq] at h
    subst h
    intro x
    simp
  rw [if_neg h4] at h
  by_cases h5 : mt = Tattach
  · rw [if_pos h5] at h
    simp only [Except.ok.injEq] at h
    subst h
    intro x
    simp
  rw [if_neg h5] at h
  by_cases h6 : mt = Rattach
  · rw [if_pos h6] at h
    simp only [Except.ok.injEq] at h
    subst h
    intro x
    simp
  rw [if_neg h6] at h
  by_cases h7 : mt = Tflush
  · rw [if_pos h7] at h
    simp only [Except.ok.injEq] at h
    subst h
    intro x
    simp
  rw [if_neg h7] at h
  by_cases h8 : mt = Rflush
  · rw [if_pos h8] at h
    simp only [Except.ok.injEq] at h
    subst h
    intro x
    simp
  rw [if_neg h8] at h
  by_cases h9 : mt = Twalk
  · rw [if_pos h9] at h
    simp only [Except.ok.injEq] at h
    subst h
    intro x
    simp
  rw [if_neg h9] at h
  by_cases h10 : mt = Rwalk
  · rw [if_pos h10] at h
    simp only [Except.ok.injEq] at h
    subst h
    intro x
    simp
  rw [if_neg h10] at h
  by_cases h11 : mt = Topen
  · rw [if_pos h11] at h
    simp only [Except.ok.injEq] at h
    subst h
    intro x
    simp
  rw [if_neg h11] at h
  by_cases h12 : mt = Ropen
  · rw [if_pos h12] at h
    simp only [Except.ok.injEq] at h
    subst h
    intro x
    simp
  rw [if_neg h12] at h
  by_cases h13 : mt = Tcreate
  · rw [if_pos h13] at h
    simp only [Except.ok.injEq] at h
    subst h
    intro x
    simp
  rw [if_neg h13] at h
  by_cases h14 : mt = Rcreate
  · rw [if_pos h14] at h
    simp only [Except.ok.injEq] at h
    subst h
    intro x
    simp
  rw [if_neg h14] at h
  by_cases h15 : mt = Tread
  · rw [if_pos h15] at h
    simp only [Except.ok.injEq] at h
    subst h
    intro x
    simp
  rw [if_neg h15] at h
  by_cases h16 : mt = Rread
  · rw [if_pos h16] at h
    simp only [Except.ok.injEq] at h
    subst h
    intro x
    simp
  rw [if_neg h16] at h
  by_cases h17 : mt = Twrite
  · rw [if_pos h17] at h
    simp only [Except.ok.injEq] at h
    subst h
    intro x
    simp
  rw [if_neg h17] at h
  by_cases h18 : mt = Rwrite
  · rw [if_pos h18] at h
    simp only [Except.ok.injEq] at h
    subst h
    intro x
    simp
  rw [if_neg h18] at h
  by_cases h19 : mt = Tclunk
  · rw [if_pos h19] at h
    simp only [Except.ok.injEq] at h
    subst h
    intro x
    simp
  rw [if_neg h19] at h
  by_cases h20 : mt = Rclunk
  · rw [if_pos h20] at h
    simp only [Except.ok.injEq] at h
    subst h
    intro x
    simp
  rw [if_neg h20] at h
  by_cases h21 : mt = Tremove
  · rw [if_pos h21] at h
    simp only [Except.ok.injEq] at h
    subst h
    intro x
    simp
  rw [if_neg h21] at h
  by_cases h22 : mt = Rremove
  · rw [if_pos h22] at h
    simp only [Except.ok.injEq] at h
    subst h
    intro x
    simp
  rw [if_neg h22] at h
  by_cases h23 : mt = Tstat
  · rw [if_pos h23] at h
    simp only [Except.ok.injEq] at h
    subst h
    intro x
    simp
  rw [if_neg h23] at h
  by_cases h24 : mt = Rstat
  · rw [if_pos h24] at h
    simp only [Except.ok.injEq] at h
    subst h
    intro x
    simp
  rw [if_neg h24] at h
  by_cases h25 : mt = Twstat
  · rw [if_pos h25] at h
    simp only [Except.ok.injEq] at h
    subst h
    intro x
    simp
  rw [if_neg h25] at h
  by_cases h26 : mt = Rwstat
  · rw [if_pos h26] at h
    simp only [Except.ok.injEq] at h
    subst h
    intro x
    simp
  rw [if_neg h26] at h
  by_cases h27 : mt = Rerror
  · rw [if_pos h27] at h
    simp only [Except.ok.injEq] at h
    subst h
    intro x
    simp
  rw [if_neg h27] at h
  exact Except.noConfusion h

theorem decLike_shape {t : Msg} {s : LR} {m : Msg} {s1 : LR}
    (h : t.decLike s = .ok (m, s1)) (ht : ∀ x, t ≠ .removeR x) :
    ∀ rr, m ≠ .removeR rr := by
  cases t <;> simp only [Msg.decLike] at h
  case removeR y => exact absurd rfl (ht y)
  all_goals
    obtain ⟨a, rfl⟩ := dmap_shape h
    intro rr
    simp

/-- The client-side body decoder can never produce a `RemoveResponse`
value, whatever the input bytes. -/
theorem decodeMsgC_not_removeR {mt : Nat} {s : LR} {m : Msg} {s1 : LR}
    (h : decodeMsgC mt s = .ok (m, s1)) : ∀ rr, m ≠ .removeR rr := by
  unfold decodeMsgC at h
  split at h
  · exact Except.noConfusion h
  · rename_i r heq
    exact decLike_shape h (MessageTypeToMessage_not_removeR heq)

/-- No delivery the reader loop ever makes carries a `RemoveResponse`. -/
theorem clientStart_no_removeR (input : List Nat) (q : Queue) :
    ∀ p ∈ (clientStart input q).2.2, ∀ rr : RemoveResponse,
      p.2 ≠ some (.removeR rr) := by
  induction input, q using clientStart.induct with
  | case1 input q e hh =>
    rw [clientStart_hdr_err hh]
    intro p hp
    simp at hp
  | case2 input q size mt rest hh e hb =>
    rw [clientStart_body_err hh hb]
    intro p hp
    simp at hp
  | case3 input q size mt rest hh m s2 hb q1 _e e q2 ds hrec d0 hd ih =>
    obtain ⟨hd0, hq1⟩ := handleResponse_some hd
    rw [clientStart_step hh hb, hd]
    dsimp only
    rw [hrec]
    dsimp only
    rw [hrec] at ih
    intro p hp
    rcases List.mem_cons.mp hp with rfl | hp2
    · subst hd0
      intro rr hc
      simp only [Option.some.injEq] at hc
      exact decodeMsgC_not_removeR hb rr hc
    · exact ih p hp2
  | case4 input q size mt rest hh m s2 hb q1 _e e q2 ds hrec hd ih =>
    rw [clientStart_step hh hb, hd]
    dsimp only
    rw [hrec]
    dsimp only
    rw [hrec] at ih
    exact fun p hp => ih p hp

/- ### Facts about `send` and the per-call wrappers -/

theorem qremove_of_not_mem {q : Queue} {t : Nat} (h : t ∉ q) :
    qremove q t = q := by
  rw [qremove, List.filter_eq_self]
  intro x hx
  simp only [bne_iff_ne, ne_eq]
  intro hxt
  exact h (hxt ▸ hx)

theorem qremove_cons_self {q : Queue} {t : Nat} (h : t ∉ q) :
    qremove (t :: q) t = q := by
  rw [qremove, List.filter_cons]
  simp only [bne_self_eq_false, Bool.false_eq_true, if_false]
  exact qremove_of_not_mem h

theorem awaitOutcome_ok {resp : Option Msg} {m : Msg}
    (h : awaitOutcome resp = .ok m) : resp = some m := by
  rcases resp with _ | mm
  · simp [awaitOutcome] at h
  · cases mm <;> simp_all [awaitOutcome]

/-- A `send` can only hand back a message that the environment actually
delivered on the caller's channel. -/
theorem send_ok_delivery {q : Queue} {d : Msg} {w : Bool}
    {dv : Option (Option Msg)} {q1 : Queue} {m : Msg}
    (h : send q d w dv = (q1, .ok m)) : dv = some (some m) := by
  unfold send at h
  split at h
  · rename_i q0 e heq
    simp only [Prod.mk.injEq] at h
    exact absurd h.2 (by simp)
  · rename_i q0 heq
    dsimp only at h
    split at h
    · split at h
      · simp only [Prod.mk.injEq] at h
        exact absurd h.2 (by simp)
      · rename_i resp
        split at h
        · simp only [Prod.mk.injEq] at h
          exact absurd h.2 (by simp)
        · rename_i m1 haw
          simp only [Prod.mk.injEq, SendResult.ok.injEq] at h
          rw [awaitOutcome_ok haw, h.2]
    · simp only [Prod.mk.injEq] at h
      exact absurd h.2 (by simp)

/- ### Claim theorems -/

/-- C1: evaluation at the failing input `Rremove` (123).  The claim — that
`MessageTypeToMessage` and `MessageToMessageType` are mutually inverse on
every defined type code and variant — is broken exactly here:
`MessageTypeToMessage Rremove` allocates a `RemoveRequest`, so the
code-side round trip yields `Tremove` (122) instead of `Rremove` (123),
and the variant-side round trip on `RemoveResponse` yields a
`RemoveRequest` value. -/
theorem C1_rremove_eval :
    MessageTypeToMessage Rremove = .ok (.removeT ⟨0, 0⟩) ∧
    MessageToMessageType (.removeT ⟨0, 0⟩) = Tremove ∧
    Tremove ≠ Rremove ∧
    MessageToMessageType (.removeR ⟨0⟩) = Rremove ∧
    MessageTypeToMessage (MessageToMessageType (.removeR ⟨0⟩)) =
      .ok (.removeT ⟨0, 0⟩) := by
  decide

/-- C2: evaluation at the failing input — an empty pending table, a
request with tag 0 and a failing transport write.  `Client.write` removes
the freshly reserved slot (the final table is empty), but `Client.send`
discards `c.write`'s returned error and then blocks forever on the
now-unreachable channel — whatever the environment would have delivered —
instead of returning the transport error as the claim (and the spec's
send path, step 2) requires. -/
theorem C2_send_swallows_write_error :
    ∀ dv : Option (Option Msg),
      send [] (.versionT ⟨0, 0, []⟩) false dv = ([], .blockedForever) := by
  intro dv
  rfl

/-- C9: the version-negotiation frame of spec scenario 1, byte for byte:
`Tversion` (100), tag `NOTAG`, msize 8192, version string `9P2000`. -/
theorem C9_version_wire :
    Encode (.versionT ⟨NOTAG, 8192, [0x39, 0x50, 0x32, 0x30, 0x30, 0x30]⟩) =
      [0x13, 0x00, 0x00, 0x00, 0x64, 0xFF, 0xFF, 0x00, 0x20, 0x00, 0x00,
        0x06, 0x00, 0x39, 0x50, 0x32, 0x30, 0x30, 0x30] := by
  decide

/-- C6 (counterexample): a well-formed `Rclunk` frame advertising a 3-byte
body of which the decoder consumes only 2.  `Decode` returns the message
with the surplus byte left unconsumed — it does not fail, contradicting
the claim's second half. -/
theorem C6_counterexample :
    Decode [8, 0, 0, 0, 121, 7, 0, 170] = .ok (.clunkR ⟨7⟩, [170]) ∧
    fromLE ([8, 0, 0, 0, 121, 7, 0, 170].take 4) = 8 := by
  decide

/-- C6 (amended): decoding a frame whose body would consume more bytes
than the advertised size fails — equivalently, a successful `Decode` never
consumes more than the advertised frame size (`max size 5` to cover sizes
below the 5 header bytes it always reads) — but a body consuming *fewer*
bytes than advertised is not detected: `Decode` succeeds, leaving the
surplus bytes unconsumed, as the concrete frame in the second conjunct
shows. -/
theorem C6_overread_fails_underread_passes :
    (∀ (b : List Nat) (m : Msg) (rest : List Nat), Decode b = .ok (m, rest) →
      b.length - rest.length ≤ max (fromLE (b.take 4)) 5) ∧
    Decode [8, 0, 0, 0, 121, 7, 0, 171] = .ok (.clunkR ⟨7⟩, [171]) :=
  ⟨fun _ _ _ h => Decode_consumed h, by decide⟩

/-- C6 (witness): the bound instantiated at a well-formed 7-byte `Rclunk`
frame, which decodes consuming all 7 ≤ max 7 5 bytes. -/
theorem C6_witness :
    [7, 0, 0, 0, 121, 9, 0].length - ([] : List Nat).length ≤
      max (fromLE ([7, 0, 0, 0, 121, 9, 0].take 4)) 5 :=
  C6_overread_fails_underread_passes.1 [7, 0, 0, 0, 121, 9, 0]
    (.clunkR ⟨9⟩) [] (by decide)

/-- C5 (counterexample): a `WriteRequest` whose `Data` has length
`2 ^ 32 - 23` — allowed by the claim's hypotheses — has
`EncodedLength + 5 = 2 ^ 32`, but the `uint32` size field written by
`Encode` wraps to 0, so the field does not equal the total byte count. -/
theorem C5_counterexample :
    (Msg.writeT ⟨0, 0, 0, List.replicate (2 ^ 32 - 23) 0⟩).EncodedLength + 5 =
      2 ^ 32 ∧
    fromLE ((Encode (.writeT ⟨0, 0, 0, List.replicate (2 ^ 32 - 23) 0⟩)).take 4)
      = 0 ∧ (0 : Nat) ≠ 2 ^ 32 := by
  have hgen : ∀ d : List Nat, (Msg.writeT ⟨0, 0, 0, d⟩).EncodedLength =
      18 + d.length := by
    intro d
    show 2 + 4 + 8 + 4 + d.length = 18 + d.length
    omega
  have hL : (Msg.writeT ⟨0, 0, 0, List.replicate (2 ^ 32 - 23) 0⟩).EncodedLength +
      HeaderSize = 2 ^ 32 := by
    rw [hgen, List.length_replicate, HeaderSize]
    norm_num
  refine ⟨by rw [hgen, List.length_replicate]; norm_num, ?_, by norm_num⟩
  rw [Encode, hL, List.append_assoc, WriteUint32,
    List.take_left' (show (toLE 4 (2 ^ 32)).length = 4 from by simp), ← toLE_mod 4 (2 ^ 32)]
  norm_num [fromLE_toLE]

/-- C5 (amended): the frame produced by `Encode` always consists of
exactly `EncodedLength + 5` bytes, unconditionally; and the `uint32` size
field equals that total whenever the total fits in 32 bits (otherwise it
holds the total reduced mod `2 ^ 32`, see the counterexample). -/
theorem C5_size_accuracy (m : Msg) :
    (Encode m).length = m.EncodedLength + 5 ∧
    (m.EncodedLength + 5 < 2 ^ 32 →
      fromLE ((Encode m).take 4) = m.EncodedLength + 5) := by
  refine ⟨length_Encode m, fun hsz => ?_⟩
  rw [Encode, List.append_assoc, WriteUint32,
    List.take_left' (show (toLE 4 (m.EncodedLength + HeaderSize)).length = 4 from by simp),
    fromLE_toLE_of_lt (by simpa [HeaderSize] using hsz), HeaderSize]

/-- C5 (witness): size accuracy evaluated on a small `Rflush` frame. -/
theorem C5_witness :
    (Encode (.flushR ⟨9⟩)).length = (Msg.flushR ⟨9⟩).EncodedLength + 5 ∧
    fromLE ((Encode (.flushR ⟨9⟩)).take 4) = (Msg.flushR ⟨9⟩).EncodedLength + 5 :=
  ⟨(C5_size_accuracy (.flushR ⟨9⟩)).1,
   (C5_size_accuracy (.flushR ⟨9⟩)).2 (by decide)⟩

/-- C4 (counterexample): a `ReadResponse` whose `Data` has length
`2 ^ 32 - 11` satisfies all the claim's fit bounds (data `< 2 ^ 32`), yet
the `uint32` size field of its frame wraps to 0, the body reader gets a
negative budget, and decoding the encoded frame fails instead of
returning the message. -/
theorem C4_counterexample :
    (Msg.readR ⟨0, List.replicate (2 ^ 32 - 11) 0⟩).fits ∧
    Decode (Encode (.readR ⟨0, List.replicate (2 ^ 32 - 11) 0⟩)) =
      .error .eof := by
  have hgen : ∀ d : List Nat, (Msg.readR ⟨0, d⟩).EncodedLength =
      6 + d.length := by
    intro d
    show 2 + 4 + d.length = 6 + d.length
    omega
  constructor
  · show (0 : Nat) < 2 ^ 16 ∧ (List.replicate (2 ^ 32 - 11) (0 : Nat)).length < 2 ^ 32
    rw [List.length_replicate]
    norm_num
  · have hL : (Msg.readR ⟨0, List.replicate (2 ^ 32 - 11) 0⟩).EncodedLength +
        HeaderSize = 2 ^ 32 := by
      rw [hgen, List.length_replicate, HeaderSize]
      norm_num
    have htoLE : toLE 4 ((2 : Nat) ^ 32) = toLE 4 0 := by
      rw [← toLE_mod 4 (2 ^ 32)]
      norm_num
    have hframe : Encode (.readR ⟨0, List.replicate (2 ^ 32 - 11) 0⟩) =
        WriteUint32 0 ++ (WriteByte 117 ++
          (Msg.readR ⟨0, List.replicate (2 ^ 32 - 11) 0⟩).body) := by
      rw [Encode, hL, List.append_assoc, WriteUint32, htoLE]
      rfl
    have hh : DecodeHdr (Encode (.readR ⟨0, List.replicate (2 ^ 32 - 11) 0⟩)) =
        .ok ((0, 117), (Msg.readR ⟨0, List.replicate (2 ^ 32 - 11) 0⟩).body) := by
      rw [hframe]
      exact DecodeHdr_enc (s := 0) (t := 117) (by norm_num) (by norm_num) _
    have hrb : readB 2 ⟨(Msg.readR ⟨0, List.replicate (2 ^ 32 - 11) 0⟩).body,
        ((0 : Nat) : Int) - ((HeaderSize : Nat) : Int)⟩ = .error .eof := by
      rw [readB, if_neg (by decide)]
      rw [if_neg ?hcond]
      case hcond =>
        rintro ⟨h1, -⟩
        norm_num [HeaderSize] at h1
    have h1 : ReadTag ⟨(Msg.readR ⟨0, List.replicate (2 ^ 32 - 11) 0⟩).body,
        ((0 : Nat) : Int) - ((HeaderSize : Nat) : Int)⟩ = .error .eof := by
      rw [ReadTag, ReadUint16]
      exact dbind_error hrb
    have h2 : ReadResponse.dec ⟨(Msg.readR ⟨0, List.replicate (2 ^ 32 - 11) 0⟩).body,
        ((0 : Nat) : Int) - ((HeaderSize : Nat) : Int)⟩ = .error .eof := by
      rw [ReadResponse.dec]
      exact dbind_error h1
    have hb : decodeBodySwitch 117
        ⟨(Msg.readR ⟨0, List.replicate (2 ^ 32 - 11) 0⟩).body,
          ((0 : Nat) : Int) - ((HeaderSize : Nat) : Int)⟩ = .error .eof := by
      rw [show decodeBodySwitch 117 =
        dbind ReadResponse.dec (fun x => dpure (.readR x)) from rfl]
      exact dbind_error h2
    exact Decode_error_body hh hb

/-- C4 (amended): the codec round-trip holds for every message whose
variable-length fields fit their wire widths *and* whose total frame size
`EncodedLength + 5` fits the `uint32` size field (the counterexample shows
this extra bound is necessary): decoding the encoded frame returns the
message with the body consumed exactly, and every canonical (well-formed)
byte sequence — one produced by `Encode` from such a message — re-encodes
bit-identically after decoding, the doubly length-prefixed Stat bodies
included. -/
theorem C4_roundtrip :
    (∀ m : Msg, m.fits → m.EncodedLength + 5 < 2 ^ 32 →
      Decode (Encode m) = .ok (m, [])) ∧
    (∀ b : List Nat,
      (∃ m : Msg, m.fits ∧ m.EncodedLength + 5 < 2 ^ 32 ∧ Encode m = b) →
      ∃ m : Msg, Decode b = .ok (m, []) ∧ Encode m = b) := by
  refine ⟨fun m hf hsz => decode_encode m hf hsz, ?_⟩
  rintro b ⟨m, hf, hsz, rfl⟩
  exact ⟨m, decode_encode m hf hsz, rfl⟩

/-- C4 (witness): the round trip evaluated on the scenario-1 `Tversion`
message and on an `Rstat` frame exercising the double length prefix. -/
theorem C4_witness :
    Decode (Encode (.versionT ⟨NOTAG, 8192, [0x39, 0x50, 0x32, 0x30, 0x30, 0x30]⟩)) =
      .ok (.versionT ⟨NOTAG, 8192, [0x39, 0x50, 0x32, 0x30, 0x30, 0x30]⟩, []) ∧
    Decode (Encode (.statR ⟨1, ⟨0, 0, ⟨0, 1, 2⟩, 0, 3, 4, 5, [97], [98], [99], [100]⟩⟩)) =
      .ok (.statR ⟨1, ⟨0, 0, ⟨0, 1, 2⟩, 0, 3, 4, 5, [97], [98], [99], [100]⟩⟩, []) :=
  ⟨C4_roundtrip.1 (.versionT ⟨NOTAG, 8192, [0x39, 0x50, 0x32, 0x30, 0x30, 0x30]⟩)
      (by decide) (by decide),
   C4_roundtrip.1 (.statR ⟨1, ⟨0, 0, ⟨0, 1, 2⟩, 0, 3, 4, 5, [97], [98], [99], [100]⟩⟩)
      (by decide) (by decide)⟩

/-- C3 (counterexample): the reader terminates with EOF while tag 5 is
still pending — `Start` returns leaving the slot in the table and makes no
delivery at all, so the caller blocked on tag 5 is *not* woken with the
termination error as the claim requires. -/
theorem C3_counterexample :
    clientStart [] [5] = (.eof, [5], []) ∧
    ¬∃ p ∈ (clientStart [] [5]).2.2, p.1 = 5 := by
  have h : clientStart [] [5] = (.eof, [5], []) := clientStart_hdr_err rfl
  refine ⟨h, ?_⟩
  rw [h]
  rintro ⟨p, hp, -⟩
  simp at hp

/-- C3 (amended): when the reader loop terminates with a transport or
parse error it merely returns that error: the pending table is left with
every still-pending slot intact (it only ever shrinks by response
delivery), every delivery made carried an ordinary decoded response —
never a termination error, which its channels cannot even represent — and
no still-pending tag received anything, so such callers stay blocked. -/
theorem C3_reader_terminates_without_waking (input : List Nat) (q : Queue) :
    (clientStart input q).2.1 ⊆ q ∧
    ∀ p ∈ (clientStart input q).2.2,
      p.2.isSome ∧ p.1 ∉ (clientStart input q).2.1 :=
  ⟨clientStart_queue_subset input q, clientStart_deliveries input q⟩

/-- A concrete run of the reader loop: one well-formed `Rclunk` frame for
pending tag 3, then EOF. -/
theorem clientStart_eval_clunk3 :
    clientStart [7, 0, 0, 0, 121, 3, 0] [3] =
      (.eof, [], [(3, some (.clunkR ⟨3⟩))]) := by
  rw [clientStart_step
    (show DecodeHdr [7, 0, 0, 0, 121, 3, 0] = .ok ((7, 121), [3, 0]) from rfl)
    (show decodeMsgC 121 ⟨[3, 0], ((7 : Nat) : Int) - ((HeaderSize : Nat) : Int)⟩ =
      .ok (.clunkR ⟨3⟩, ⟨[], 0⟩) from rfl)]
  rw [show handleResponse [3] (.clunkR ⟨3⟩) =
    ([], some (3, some (.clunkR ⟨3⟩)), none) from rfl]
  dsimp only
  rw [clientStart_hdr_err (show DecodeHdr [] = .error .eof from rfl)]

/-- C3 (witness): the amended statement at a run that delivered tag 3's
response and then hit EOF. -/
theorem C3_witness :
    ((3, some (Msg.clunkR ⟨3⟩)) : Nat × Option Msg).2.isSome ∧
    ((3, some (Msg.clunkR ⟨3⟩)) : Nat × Option Msg).1 ∉
      (clientStart [7, 0, 0, 0, 121, 3, 0] [3]).2.1 :=
  (C3_reader_terminates_without_waking [7, 0, 0, 0, 121, 3, 0] [3]).2
    (3, some (.clunkR ⟨3⟩)) (by rw [clientStart_eval_clunk3]; simp)

/-- C7: reserving a pending tag fails with `TagInUse` leaving the table
unchanged — both at the `send` entry point and in `getTag` itself — and
after the slot is removed by response delivery (`handleResponse`) or by
flush, reserving the same tag succeeds. -/
theorem C7_tag_uniqueness :
    (∀ (q : Queue) (d : Msg) (writeOk : Bool) (dv : Option (Option Msg)),
      d.GetTag ∈ q → send q d writeOk dv = (q, .err .tagInUse)) ∧
    (∀ (q : Queue) (t : Nat), t ∈ q → getTag q t = (q, some .tagInUse)) ∧
    (∀ (q : Queue) (m : Msg) (q1 : Queue) (dl : Option (Nat × Option Msg))
      (e : Option CErr), m.GetTag ∈ q → handleResponse q m = (q1, dl, e) →
      m.GetTag ∉ q1 ∧ getTag q1 m.GetTag = (m.GetTag :: q1, none)) ∧
    (∀ (q : Queue) (t : Nat) (q1 : Queue) (dl : Option (Nat × Option Msg)),
      t ∈ q → flush q t = (q1, dl) →
      t ∉ q1 ∧ getTag q1 t = (t :: q1, none)) := by
  refine ⟨?_, ?_, ?_, ?_⟩
  · intro q d w dv h
    unfold send
    rw [show getTag q d.GetTag = (q, some .tagInUse) from by rw [getTag, if_pos h]]
  · intro q t h
    rw [getTag, if_pos h]
  · intro q m q1 dl e hmem heq
    unfold handleResponse at heq
    rw [if_pos hmem] at heq
    simp only [Prod.mk.injEq] at heq
    obtain ⟨hq1, -⟩ := heq
    subst hq1
    refine ⟨by simp, ?_⟩
    rw [getTag, if_neg (by simp)]
  · intro q t q1 dl hmem heq
    unfold flush at heq
    rw [if_pos hmem] at heq
    simp only [Prod.mk.injEq] at heq
    obtain ⟨hq1, -⟩ := heq
    subst hq1
    refine ⟨by simp, ?_⟩
    rw [getTag, if_neg (by simp)]

/-- C7 (witness): `TagInUse` on a colliding `send`, and a successful
re-reservation after a delivery removed the slot. -/
theorem C7_witness :
    send [4] (.clunkT ⟨4, 1⟩) true none = ([4], .err .tagInUse) ∧
    ((Msg.clunkR ⟨4⟩).GetTag ∉ ([] : Queue) ∧
      getTag [] (Msg.clunkR ⟨4⟩).GetTag = ([(Msg.clunkR ⟨4⟩).GetTag], none)) :=
  ⟨C7_tag_uniqueness.1 [4] (.clunkT ⟨4, 1⟩) true none (by decide),
   C7_tag_uniqueness.2.2.1 [4] (.clunkR ⟨4⟩) [] (some (4, some (.clunkR ⟨4⟩)))
     none (by decide) (by decide)⟩

/-- C8: flush semantics.  (a) With tag `OldTag` pending and the `Rflush`
delivered, `Client.Flush` wakes the `OldTag` slot with the Go `nil`
("flushed") marker and removes it — and a caller receiving that marker
observes `ErrFlushed`.  (b) If the normal response was delivered first,
it reaches the caller as an ordinary message (the type check proceeds:
`awaitOutcome` hands over any non-`Rerror` message unchanged) and the
subsequent flush of the already-removed slot is a no-op. -/
theorem C8_flush_semantics :
    (∀ (q : Queue) (r : FlushRequest) (fr : FlushResponse),
      r.OldTag ∈ q → r.Tag ∉ q →
      ClientFlush q r true (some (some (.flushR fr))) =
        (qremove q r.OldTag, some (r.OldTag, none), .ok fr) ∧
      awaitOutcome none = .error .flushed) ∧
    (∀ (q : Queue) (m : Msg) (q1 : Queue) (d0 : Nat × Option Msg)
      (e : Option CErr), handleResponse q m = (q1, some d0, e) →
      d0 = (m.GetTag, some m) ∧ flush q1 m.GetTag = (q1, none) ∧
      ((∀ er : ErrorResponse, m ≠ .errorR er) →
        awaitOutcome (some m) = .ok m)) := by
  constructor
  · intro q r fr hOld hTag
    refine ⟨?_, rfl⟩
    have hTag' : (Msg.flushT r).GetTag ∉ q := hTag
    have hsend : send q (.flushT r) true (some (some (.flushR fr))) =
        (q, .ok (.flushR fr)) := by
      unfold send
      rw [show getTag q (Msg.flushT r).GetTag =
        ((Msg.flushT r).GetTag :: q, none) from by rw [getTag, if_neg hTag']]
      dsimp only
      rw [show write ((Msg.flushT r).GetTag :: q) (Msg.flushT r).GetTag true =
        ((Msg.flushT r).GetTag :: q, true) from rfl]
      dsimp only
      rw [if_pos (show (Msg.flushT r).GetTag ∈
        (Msg.flushT r).GetTag :: q from List.mem_cons_self _ _)]
      rw [show awaitOutcome (some (.flushR fr)) = .ok (.flushR fr) from rfl]
      dsimp only
      rw [qremove_cons_self hTag']
    unfold ClientFlush
    rw [hsend]
    dsimp only
    rw [show flush q r.OldTag = (qremove q r.OldTag, some (r.OldTag, none)) from by
      rw [flush, if_pos hOld]]
  · intro q m q1 d0 e h
    obtain ⟨hd0, hq1⟩ := handleResponse_some h
    refine ⟨hd0, ?_, ?_⟩
    · rw [hq1, flush, if_neg (by simp)]
    · intro hne
      cases m
      case errorR er => exact absurd rfl (hne er)
      all_goals rfl

/-- C8 (witness): a flush of pending tag 7 via flush-request tag 8, and a
prior-delivery case on tag 9. -/
theorem C8_witness :
    (ClientFlush [7] ⟨8, 7⟩ true (some (some (.flushR ⟨8⟩))) =
      (qremove [7] 7, some (7, none), .ok ⟨8⟩) ∧
      awaitOutcome none = .error .flushed) ∧
    ((7, some (Msg.clunkR ⟨7⟩)) = ((Msg.clunkR ⟨7⟩).GetTag, some (.clunkR ⟨7⟩)) ∧
      flush [] (Msg.clunkR ⟨7⟩).GetTag = ([], none) ∧
      ((∀ er : ErrorResponse, Msg.clunkR ⟨7⟩ ≠ .errorR er) →
        awaitOutcome (some (.clunkR ⟨7⟩)) = .ok (.clunkR ⟨7⟩))) :=
  ⟨C8_flush_semantics.1 [7] ⟨8, 7⟩ ⟨8⟩ (by decide) (by decide),
   C8_flush_semantics.2 [7] (.clunkR ⟨7⟩) [] (7, some (.clunkR ⟨7⟩)) none
     (by decide)⟩

/-- C10: a well-formed minimal `Rremove` frame — size 7, type 123, 2-byte
tag body — kills the reader: `MessageTypeToMessage` allocates a
`RemoveRequest`, whose `Decode` then tries to read a 4-byte fid beyond
the 2-byte bounded body, so `Client.Start` returns an EOF-style error,
delivering nothing and leaving the pending table as it was.  And since
the reader can only ever deliver what `MessageTypeToMessage` allocates —
never a `RemoveResponse` — a `Client.Remove` call can never return an
`RemoveResponse`, whatever happens. -/
theorem C10_rremove_unusable :
    (∀ (a b : Nat) (q : Queue),
      clientStart [7, 0, 0, 0, 123, a, b] q = (.eof, q, [])) ∧
    (∀ (q : Queue) (r : RemoveRequest) (w : Bool) (dv : Option (Option Msg)),
      (dv = none ∨ dv = some none ∨
        ∃ (m : Msg) (input : List Nat) (q0 : Queue) (p : Nat × Option Msg),
          dv = some (some m) ∧ p ∈ (clientStart input q0).2.2 ∧ p.2 = some m) →
      ∀ rr : RemoveResponse, (ClientRemove q r w dv).2 ≠ .ok rr) := by
  constructor
  · intro a b q
    exact clientStart_body_err (by rfl) (by rfl)
  · intro q r w dv hdv rr hc
    unfold ClientRemove at hc
    rcases hsend : send q (.removeT r) w dv with ⟨q1, sr⟩
    rw [hsend] at hc
    cases sr with
    | err e => simp at hc
    | blockedForever => simp at hc
    | ok m =>
      have hdv2 : dv = some (some m) := send_ok_delivery hsend
      cases m
      case removeR rr2 =>
        rcases hdv with h1 | h1 | ⟨m1, input, q0, p, hm1, hpmem, hp2⟩
        · rw [h1] at hdv2
          exact Option.noConfusion hdv2
        · rw [h1] at hdv2
          simp at hdv2
        · rw [hm1] at hdv2
          simp only [Option.some.injEq] at hdv2
          rw [hdv2] at hp2
          exact clientStart_no_removeR input q0 p hpmem rr2 hp2
      all_goals simp at hc

/-- C10 (witness): the frame-kill at tag bytes `9, 9`, and the
impossibility of an `.ok` result with no delivery. -/
theorem C10_witness :
    clientStart [7, 0, 0, 0, 123, 9, 9] [] = (.eof, [], []) ∧
    (ClientRemove [] ⟨1, 2⟩ true none).2 ≠ .ok ⟨0⟩ :=
  ⟨C10_rremove_unusable.1 9 9 [],
   C10_rremove_unusable.2 [] ⟨1, 2⟩ true none (Or.inl rfl) ⟨0⟩⟩

end G9p
